/-
Verification of the contribution-graph renderer (`svg.ts`) of atuin-abacus.

Modelling conventions for the shallow embedding:

* Calendar dates (`YYYY-MM-DD` strings and JS `Date` objects at UTC midnight)
  are represented by their day number: days since 1970-01-01.  `daysFromCivil`
  and `civilFromDays` below model the proleptic-Gregorian conversions that the
  JS `Date` engine performs (`Date.UTC`, `getFullYear`, `getMonth`, `getDate`,
  `getDay`, `toISOString`); the round-trip theorem certifies the model.
* JS numbers are modelled by exact arithmetic (`ℤ`, `ℕ`, `ℚ`) everywhere the
  double rounding is unobservable.  The one place it is observable is the
  percentile index `Math.ceil((percentile / 100) * arr.length)`: there the
  IEEE-754 binary64 round-to-nearest-even of the quotient and of the product
  is modelled exactly (`roundMantissa` below) — e.g. `0.55 * 100` is
  `55.000000000000004`, whose ceiling is `56`, not `55`.  The renderer
  only ever compares `Math.log10(count + 1)` values against `Math.log10`
  values of other counts; since `log10` is strictly increasing these
  comparisons are carried out directly on the counts.
* A JS `Map` is modelled as an association list with `mapSet` (insert keeps
  insertion order, update keeps the position) and `List.lookup`.
* The chroma-js color library is an external capability (per the design
  notes): its outputs are abstracted as a `ChromaScale` parameter.
* `new Date()` (the clock) is abstracted as an explicit `today` parameter.
* `Math.max(...xs)` of an empty list is `-Infinity` in JS and poisons all
  output dimensions; this is modelled by `Option` (`none` for the empty list).
-/
import Mathlib

namespace AtuinAbacus

/-! ### Calendar model: proleptic Gregorian ↔ days since 1970-01-01 -/
/-- Day number (days since 1970-01-01) of the Gregorian date
`(year, month 1–12, day)`.  The day may exceed the month length, in which
case it rolls over into the following months, exactly as JS `Date.UTC` does. -/
def daysFromCivil (y m d : ℤ) : ℤ :=
  let y' := if m ≤ 2 then y - 1 else y
  let mp := (m + 9) % 12
  let doy := (153 * mp + 2) / 5 + d - 1
  365 * y' + y' / 4 - y' / 100 + y' / 400 + doy - 719468

/-- Inverse of `daysFromCivil`: day number to `(year, month 1–12, day 1–31)`.
Decomposes the day number into 400-year era, century, quadrennium and year. -/
def civilFromDays (z : ℤ) : ℤ × ℤ × ℤ :=
  let z' := z + 719468
  let era := z' / 146097
  let doe := z' - 146097 * era
  let c := min (doe / 36524) 3
  let dcc := doe - 36524 * c
  let q := min (dcc / 1461) 24
  let dq := dcc - 1461 * q
  let yq := min (dq / 365) 3
  let doy := dq - 365 * yq
  let yoe := 100 * c + 4 * q + yq
  let y := yoe + era * 400
  let mp := (5 * doy + 2) / 153
  let d := doy - (153 * mp + 2) / 5 + 1
  let m := if mp < 10 then mp + 3 else mp - 9
  (if m ≤ 2 then y + 1 else y, m, d)

/-- JS `Date.prototype.getUTCFullYear` on a date given by day number. -/
def jsGetFullYear (z : ℤ) : ℤ := (civilFromDays z).1

/-- JS `Date.prototype.getUTCMonth` (0 = January … 11 = December). -/
def jsGetMonth (z : ℤ) : ℤ := (civilFromDays z).2.1 - 1

/-- JS `Date.prototype.getUTCDate` (day of month, 1–31). -/
def jsGetDate (z : ℤ) : ℤ := (civilFromDays z).2.2

/-- JS `Date.prototype.getUTCDay` (0 = Sunday … 6 = Saturday);
1970-01-01 was a Thursday (= 4). -/
def jsGetDay (z : ℤ) : ℤ := (z + 4) % 7

/-! ### JS `Map`, sorting and string primitives -/
/-- `Map.prototype.set`: update the value in place if the key is already
present, otherwise append the binding (JS maps preserve insertion order). -/
def mapSet {V : Type} (m : List (ℤ × V)) (k : ℤ) (v : V) : List (ℤ × V) :=
  if m.any (fun p => p.1 = k) then
    m.map (fun p => if p.1 = k then (k, v) else p)
  else m ++ [(k, v)]

/-- JS prints the numbers occurring in this renderer either as plain
integers or as exact halves (`12`, `-8`, `5.5`); every coordinate the
renderer produces is an integer multiple of one half. -/
def numStr (q : ℚ) : String :=
  if q.den = 1 then toString q.num
  else if q.den = 2 then
    (if q.num < 0 then ("-") else ("")) ++ toString (q.num.natAbs / 2) ++ (".5")
  else toString q

/-- JS `Number.prototype.toLocaleString` for non-negative integers in the
default en-US locale: decimal digits with a comma every three digits. -/
def localeGroup (fuel : ℕ) (s : List Char) : List Char :=
  match fuel with
  | 0 => s
  | fuel + 1 =>
    if s.length ≤ 3 then s
    else localeGroup fuel (s.take (s.length - 3)) ++ (',' :: s.drop (s.length - 3))

def jsLocaleString (n : ℕ) : String :=
  String.mk (localeGroup (Nat.repr n).length (Nat.repr n).data)

/-- JS `String.prototype.replace` with a string pattern replaces only the
first occurrence. -/
def replaceFirst (s pat rep : String) : String :=
  match s.splitOn pat with
  | [] => s
  | [_] => s
  | h :: rest => h ++ rep ++ String.intercalate pat rest

/-- JS `Array.prototype.join(sep)`. -/
def joinSep (sep : String) : List String → String
  | [] => ""
  | [a] => a
  | a :: rest => a ++ sep ++ joinSep sep rest

/-- Lexicographic comparison of char lists by code unit, modelling the
default JS `Array.prototype.sort()` string comparison (all keys sorted here
are ASCII, where UTF-16 code-unit order is code-point order). -/
def charListLt : List Char → List Char → Bool
  | [], [] => false
  | [], _ :: _ => true
  | _ :: _, [] => false
  | a :: as, b :: bs =>
    if a.val < b.val then true
    else if b.val < a.val then false
    else charListLt as bs

def jsStrLe (a b : String) : Bool := ! charListLt b.data a.data

/-- Insertion step of `jsSort`. -/
def jsSortInsert {α : Type} (le : α → α → Bool) (a : α) : List α → List α
  | [] => [a]
  | b :: rest => if le a b then a :: b :: rest else b :: jsSortInsert le a rest

/-- A comparison sort modelling `Array.prototype.sort(cmp)` (JS does not fix
the algorithm; every element multiset has a unique sorted arrangement for
the total orders used here). -/
def jsSort {α : Type} (le : α → α → Bool) : List α → List α
  | [] => []
  | a :: rest => jsSortInsert le a (jsSort le rest)

/-- Number of positions of `s` at which `pat` occurs as a substring. -/
def countSubstrAux (pat : List Char) : List Char → ℕ
  | [] => 0
  | c :: rest =>
    (if pat.isPrefixOf (c :: rest) then 1 else 0) + countSubstrAux pat rest

def countSubstr (s pat : String) : ℕ := countSubstrAux pat.data s.data

/-- Whether `pat` occurs inside `s` (at a position strictly inside, or as a
prefix, or `pat` empty). -/
def containsSubstr (s pat : String) : Bool :=
  pat.data.isEmpty || decide (0 < countSubstr s pat)

/-! ### Data model of the svg module -/
/-- One element of the input series (`DailyCommandCount` in `db.ts`):
a calendar date (modelled by its day number) and a non-negative count. -/
structure DailyCommandCount where
  date : ℤ
  count : ℕ
  deriving DecidableEq, Repr

/-- One day cell of the generated grid. -/
structure Cell where
  date : ℤ
  count : ℕ
  x : ℕ
  y : ℕ
  intensity : ℕ
  deriving DecidableEq, Repr

/-- Computed document dimensions. -/
structure Dimensions where
  width : ℕ
  height : ℕ
  leftMargin : ℕ
  topMargin : ℕ
  graphWidth : ℕ
  graphHeight : ℕ
  deriving DecidableEq, Repr

/-- The optional render options (`SvgOptions`); `none` means the option was
not supplied and the documented default applies. -/
structure SvgOptions where
  cellSize : Option ℕ := none
  cellGap : Option ℕ := none
  showMonthLabels : Option Bool := none
  showDayLabels : Option Bool := none
  showFooter : Option Bool := none
  baseColor : Option String := none
  textColor : Option String := none
  cellBackground : Option String := none
  deriving DecidableEq, Repr

/-- Outputs of the chroma-js color computations in `createColorScale`,
abstracted as an external capability: the 8 lab-interpolated scale colors
and the two brightened top colors, all as functions of the base color. -/
structure ChromaScale where
  colors : List String
  bright1 : String
  bright2 : String
  deriving DecidableEq, Repr

def DAYS : List String := [("S"), ("M"), ("T"), ("W"), ("T"), ("F"), ("S")]

def MONTHS : List String :=
  [("jan"), ("feb"), ("mar"), ("apr"), ("may"), ("jun"),
   ("jul"), ("aug"), ("sep"), ("oct"), ("nov"), ("dec")]

/-! ### calculateIntensityMap -/
/-- Whether `2^e ≤ a / b` (for `a b : ℕ`, `b ≥ 1`), by integer shifts. -/
def pow2le (e : ℤ) (a b : ℕ) : Bool :=
  if 0 ≤ e then b * 2 ^ e.toNat ≤ a else b ≤ a * 2 ^ (-e).toNat

/-- Floor base-2 logarithm by structural fuel recursion (`Nat.log2` itself
is well-founded recursion; `fuel ≥ n` iterations always suffice). -/
def natLog2Go : ℕ → ℕ → ℕ
  | 0, _ => 0
  | fuel + 1, n => if 2 ≤ n then natLog2Go fuel (n / 2) + 1 else 0

def natLog2 (n : ℕ) : ℕ := natLog2Go n n

/-- The binary exponent of `a / b`: the `e` with `2^e ≤ a / b < 2^(e+1)`
(for `a ≥ 1`; the value for `a = 0` is irrelevant, the mantissa is 0). -/
def ratExp (a b : ℕ) : ℤ :=
  let e0 : ℤ := (natLog2 a : ℤ) - (natLog2 b : ℤ)
  if pow2le e0 a b then e0 else e0 - 1

/-- `num / den` rounded to the nearest integer, ties to even. -/
def roundHalfEvenDiv (num den : ℕ) : ℕ :=
  let q := num / den
  let r := num % den
  if 2 * r < den then q
  else if den < 2 * r then q + 1
  else if q % 2 = 0 then q else q + 1

/-- Round the non-negative rational `a / b` to the nearest IEEE-754 binary64
value (round-to-nearest-even, 53-bit significand): the result is the pair
`(m, e)` whose value is `m · 2^(e-52)`.  The exponent is unbounded, which
agrees with binary64 on the entire normal range; every value the renderer's
percentile arithmetic produces lies far inside it. -/
def roundMantissa (a b : ℕ) : ℕ × ℤ :=
  let e := ratExp a b
  let m := if 0 ≤ 52 - e then roundHalfEvenDiv (a * 2 ^ (52 - e).toNat) b
           else roundHalfEvenDiv a (b * 2 ^ (e - 52).toNat)
  (m, e)

/-- `⌈m · 2^sh⌉` for `m : ℕ`. -/
def ceilPow2 (m : ℕ) (sh : ℤ) : ℕ :=
  if 0 ≤ sh then m * 2 ^ sh.toNat
  else (m + 2 ^ (-sh).toNat - 1) / 2 ^ (-sh).toNat

/-- `Math.ceil((p / 100) * n) - 1` exactly as a JS engine computes it:
`p / 100` is rounded to the nearest double, as are `n` (exact below `2^53`,
hence for every realizable array length) and the product; `Math.ceil` of a
double is exact. -/
def jsPercentileIndex (p n : ℕ) : ℤ :=
  let q := roundMantissa p 100
  let l := roundMantissa n 1
  let esum : ℤ := q.2 + l.2 - 104
  let prod := if 0 ≤ esum then roundMantissa (q.1 * l.1 * 2 ^ esum.toNat) 1
              else roundMantissa (q.1 * l.1) (2 ^ (-esum).toNat)
  (ceilPow2 prod.1 (prod.2 - 52) : ℤ) - 1

/-- The percentile helper inside `calculateIntensityMap`:
`arr[Math.max(0, Math.ceil((percentile / 100) * arr.length) - 1)]`,
with the index computed in IEEE-754 binary64 arithmetic as the source's
JS engine does. -/
def getPercentile (arr : List ℕ) (percentile : ℕ) : ℕ :=
  let index : ℤ := jsPercentileIndex percentile arr.length
  arr.getD (max 0 index).toNat 0

/-- `calculateIntensityMap`: log-scaled percentile bucketing of the counts.
The source takes `Math.log10(count + 1)` of every positive count and
compares log values against log-valued thresholds; `log10` is strictly
increasing, so the comparisons are performed directly on the counts here. -/
def calculateIntensityMap (data : List DailyCommandCount) : List (ℤ × ℕ) :=
  let nonZeroCounts := jsSort (fun a b : ℕ => a ≤ b)
    ((data.map (fun d => d.count)).filter (fun c => 0 < c))
  if nonZeroCounts.length = 0 then
    data.foldl (fun m item => mapSet m item.date 0) []
  else
    let p10 := getPercentile nonZeroCounts 10
    let p25 := getPercentile nonZeroCounts 25
    let p40 := getPercentile nonZeroCounts 40
    let p55 := getPercentile nonZeroCounts 55
    let p70 := getPercentile nonZeroCounts 70
    let p80 := getPercentile nonZeroCounts 80
    let p88 := getPercentile nonZeroCounts 88
    let p94 := getPercentile nonZeroCounts 94
    let _p98 := getPercentile nonZeroCounts 98
    data.foldl (fun m item =>
      if item.count = 0 then mapSet m item.date 0
      else
        let intensity : ℕ :=
          if item.count ≤ p10 then 1
          else if item.count ≤ p25 then 2
          else if item.count ≤ p40 then 3
          else if item.count ≤ p55 then 4
          else if item.count ≤ p70 then 5
          else if item.count ≤ p80 then 6
          else if item.count ≤ p88 then 7
          else if item.count ≤ p94 then 8
          else 9
        mapSet m item.date intensity) []

/-! ### generateCells -/
/-- The `while (currentDate <= lastDate)` loop of `generateCells`; `fuel`
is only the structural termination device (callers supply exactly the
number of loop iterations, so the guard is what ends the loop). -/
def generateCellsGo (dataMap intensityMap : List (ℤ × ℕ)) (cellSize cellGap : ℕ)
    (lastDate : ℤ) : ℕ → ℤ → ℕ → List Cell
  | 0, _, _ => []
  | fuel + 1, currentDate, weekIndex =>
    if currentDate ≤ lastDate then
      { date := currentDate
        count := (dataMap.lookup currentDate).getD 0
        x := weekIndex * (cellSize + cellGap)
        y := (jsGetDay currentDate).toNat * (cellSize + cellGap)
        intensity := (intensityMap.lookup currentDate).getD 0 } ::
        generateCellsGo dataMap intensityMap cellSize cellGap lastDate fuel (currentDate + 1)
          (if jsGetDay currentDate = 6 then weekIndex + 1 else weekIndex)
    else []

/-- `generateCells`: one cell per calendar day from the first Sunday on or
before the first date through the last date.  (The source only subtracts
`firstDayOfWeek` when it is non-zero, which is the same as always
subtracting it.)  For empty input the source constructs invalid JS dates
and the loop body never runs. -/
def generateCells (data : List DailyCommandCount) (intensityMap : List (ℤ × ℕ))
    (cellSize cellGap : ℕ) : List Cell :=
  match data with
  | [] => []
  | first :: rest =>
    let startDate := first.date - jsGetDay first.date
    let lastDate := (((first :: rest).getLast?).getD first).date
    let dataMap := (first :: rest).foldl (fun m d => mapSet m d.date d.count) []
    generateCellsGo dataMap intensityMap cellSize cellGap lastDate
      (lastDate + 1 - startDate).toNat startDate 0

/-! ### calculateDimensions -/
/-- `calculateDimensions`.  `Math.max(...cells.map(c => c.x))` over an empty
cell list is `-Infinity` and poisons every derived dimension; that failure
mode is modelled by `none`. -/
def calculateDimensions (cells : List Cell) (cellSize cellGap : ℕ)
    (showDayLabels showMonthLabels showFooter : Bool) : Option Dimensions :=
  ((cells.map (fun c => c.x)).max?).map (fun maxX =>
    let leftMargin : ℕ := if showDayLabels then 30 else 10
    let topMargin : ℕ := if showMonthLabels then 20 else 10
    let rightMargin : ℕ := 10
    let bottomMargin : ℕ := if showFooter then 35 else 10
    let graphWidth := maxX + cellSize + cellGap
    let graphHeight := 7 * (cellSize + cellGap)
    { width := leftMargin + graphWidth + rightMargin
      height := topMargin + graphHeight + bottomMargin
      leftMargin := leftMargin
      topMargin := topMargin
      graphWidth := graphWidth
      graphHeight := graphHeight })

/-! ### Label and cell rendering -/
/-- `renderDayLabels`: one text element per day row. -/
def renderDayLabels (dims : Dimensions) (cellSize cellGap : ℕ) (textColor : String) : String :=
  (List.range DAYS.length).foldl (fun svg i =>
    let day := DAYS.getD i ("")
    let y : ℚ := (dims.topMargin : ℚ) + (i : ℚ) * ((cellSize : ℚ) + (cellGap : ℚ))
      + (cellSize : ℚ) / 2
    let x : ℚ := (dims.leftMargin : ℚ) - 18
    svg ++ "<text x=\"" ++ numStr x ++ "\" y=\"" ++ numStr y ++ "\" fill=\"" ++ textColor
      ++ "\" font-size=\"10\" font-family=\"monospace\" dominant-baseline=\"middle\">"
      ++ day ++ "</text>") ("")

/-- A collected month-label candidate. -/
structure MonthPos where
  month : String
  x : ℕ
  day : ℤ
  deriving DecidableEq, Repr

/-- The candidate-collection loop of `renderMonthLabels`: `currentMonth`
starts at `-1` and a candidate is recorded whenever the month changes. -/
def monthLabelStep (leftMargin : ℕ) (st : ℤ × List MonthPos) (cell : Cell) :
    ℤ × List MonthPos :=
  let month := jsGetMonth cell.date
  let day := jsGetDate cell.date
  if month ≠ st.1 then
    (month, st.2 ++ [{ month := MONTHS.getD month.toNat ("")
                       x := leftMargin + cell.x
                       day := day }])
  else st

def monthPosText (textColor : String) (pos : MonthPos) : String :=
  "<text x=\"" ++ toString pos.x ++ "\" y=\"12\" fill=\"" ++ textColor
    ++ "\" font-size=\"10\" font-family=\"monospace\">" ++ pos.month ++ "</text>"

/-- `renderMonthLabels`: collect candidates, drop the first one when it sits
more than 7 days into its month, and render the rest. -/
def renderMonthLabels (cells : List Cell) (leftMargin : ℕ) (textColor : String) : String :=
  let monthPositions := (cells.foldl (monthLabelStep leftMargin) (-1, [])).2
  let monthPositions :=
    match monthPositions with
    | [] => []
    | p :: rest => if p.day > 7 then rest else p :: rest
  joinSep ("") (monthPositions.map (monthPosText textColor))

/-- One `<rect/>` element of `renderCells`. -/
def cellRect (leftMargin topMargin cellSize : ℕ) (getColor : ℕ → String) (cell : Cell) :
    String :=
  let color := getColor cell.intensity
  let x := leftMargin + cell.x
  let y := topMargin + cell.y
  "<rect x=\"" ++ toString x ++ "\" y=\"" ++ toString y ++ "\" width=\"" ++ toString cellSize
    ++ "\" height=\"" ++ toString cellSize ++ "\" fill=\"" ++ color ++ "\" rx=\"2\"/>"

/-- `renderCells`: one rounded rect per cell, joined by newlines. -/
def renderCells (cells : List Cell) (leftMargin topMargin cellSize : ℕ)
    (getColor : ℕ → String) : String :=
  joinSep ("\n") (cells.map (cellRect leftMargin topMargin cellSize getColor))

/-! ### renderMonthSeparators -/
/-- The `year-month` grouping key (`getFullYear()`-`getMonth()`), as the
string the source builds. -/
def monthKey (z : ℤ) : String :=
  toString (jsGetFullYear z) ++ "-" ++ toString (jsGetMonth z)

/-- Cells grouped by month key in first-appearance order (JS `Map` grouping). -/
def monthGroups (cells : List Cell) : List (String × List Cell) :=
  cells.foldl (fun groups cell =>
    let key := monthKey cell.date
    if groups.any (fun g => g.1 = key) then
      groups.map (fun g => if g.1 = key then (g.1, g.2 ++ [cell]) else g)
    else groups ++ [(key, [cell])]) []

/-- State of the per-row loop building one separator path. -/
structure SepState where
  path : List String
  currentX : Option ℚ
  deriving DecidableEq, Repr

/-- One iteration (row 0–6) of the separator path construction. -/
def sepRow (prevMonthCells currMonthCells : List Cell)
    (leftMargin topMargin cellSize cellGap : ℕ) (radius : ℚ)
    (st : SepState) (row : ℕ) : SepState :=
  let y := row * (cellSize + cellGap)
  let prevInRow := prevMonthCells.filter (fun c => c.y = y)
  let currInRow := currMonthCells.filter (fun c => c.y = y)
  if prevInRow.length = 0 ∧ currInRow.length = 0 then st
  else
    let targetX : ℚ :=
      if 0 < prevInRow.length ∧ 0 < currInRow.length then
        let maxPrevX := ((prevInRow.map (fun c => c.x)).max?).getD 0
        let minCurrX := ((currInRow.map (fun c => c.x)).min?).getD 0
        if maxPrevX = minCurrX then
          (leftMargin : ℚ) + (maxPrevX : ℚ) + (cellSize : ℚ) + (cellGap : ℚ) / 2
        else
          (leftMargin : ℚ) + (maxPrevX : ℚ) + (cellSize : ℚ) + (cellGap : ℚ) / 2
      else if 0 < prevInRow.length then
        let maxPrevX := ((prevInRow.map (fun c => c.x)).max?).getD 0
        (leftMargin : ℚ) + (maxPrevX : ℚ) + (cellSize : ℚ) + (cellGap : ℚ) / 2
      else
        let minCurrX := ((currInRow.map (fun c => c.x)).min?).getD 0
        (leftMargin : ℚ) + (minCurrX : ℚ) - (cellGap : ℚ) / 2
    match st.currentX with
    | none =>
      { path := st.path ++ ["M " ++ numStr targetX ++ " " ++ numStr (topMargin : ℚ)]
        currentX := some targetX }
    | some currentX =>
      if currentX ≠ targetX then
        let stepY : ℚ := (topMargin : ℚ) + (y : ℚ) - (cellGap : ℚ) / 2
        let direction : ℚ := if targetX > currentX then 1 else -1
        { path := st.path ++
            ["L " ++ numStr currentX ++ " " ++ numStr (stepY - radius),
             "Q " ++ numStr currentX ++ " " ++ numStr stepY ++ " "
               ++ numStr (currentX + direction * radius) ++ " " ++ numStr stepY,
             "L " ++ numStr (targetX - direction * radius) ++ " " ++ numStr stepY,
             "Q " ++ numStr targetX ++ " " ++ numStr stepY ++ " "
               ++ numStr targetX ++ " " ++ numStr (stepY + radius)]
          currentX := some targetX }
      else st

/-- Build the `<path/>` element separating one pair of adjacent months, or
`none` when no row contained a cell of either month (`currentX` stays null). -/
def sepPathFor (prevMonthCells currMonthCells : List Cell)
    (leftMargin topMargin cellSize cellGap : ℕ) (strokeColor : String) : Option String :=
  let radius : ℚ := 2 + (cellGap : ℚ) / 2
  let st := (List.range 7).foldl
    (sepRow prevMonthCells currMonthCells leftMargin topMargin cellSize cellGap radius)
    { path := [], currentX := none }
  match st.currentX with
  | none => none
  | some currentX =>
    let bottomY : ℚ := (topMargin : ℚ) + 6 * ((cellSize : ℚ) + (cellGap : ℚ)) + (cellSize : ℚ)
    some ("<path d=\"" ++ joinSep (" ") (st.path ++ ["L " ++ numStr currentX ++ " "
        ++ numStr bottomY])
      ++ "\" fill=\"none\" stroke=\"" ++ strokeColor
      ++ "\" stroke-width=\"0.5\" stroke-linecap=\"round\"/>")

/-- The month keys of the grid sorted the way `Array.prototype.sort()` sorts
them: lexicographically as strings. -/
def sortedMonthKeys (cells : List Cell) : List String :=
  jsSort jsStrLe ((monthGroups cells).map (fun g => g.1))

/-- The separator stroke color: the text color at 75% opacity. -/
def sepStrokeColor (textColor : String) : String :=
  if ("#").data.isPrefixOf textColor.data then textColor ++ "C0"
  else replaceFirst (replaceFirst textColor ("rgb(") ("rgba(")) (")") (", 0.75)")

/-- `renderMonthSeparators`.  (The source also builds an `(x, y) → cell`
lookup map here that is never read; it is omitted.)  One path is attempted
per consecutive pair of string-sorted month keys. -/
def renderMonthSeparators (cells : List Cell) (leftMargin topMargin cellSize cellGap : ℕ)
    (textColor : String) : String :=
  if cells.length = 0 then ("")
  else
    let groups := monthGroups cells
    if groups.length < 2 then ("")
    else
      let sorted := sortedMonthKeys cells
      let strokeColor := sepStrokeColor textColor
      let paths := (sorted.zip sorted.tail).filterMap (fun pr =>
        sepPathFor ((groups.lookup pr.1).getD []) ((groups.lookup pr.2).getD [])
          leftMargin topMargin cellSize cellGap strokeColor)
      joinSep ("\n") paths

/-! ### renderFooter and createColorScale -/
/-- `renderFooter`: legend swatches, Less/More labels and summary text. -/
def renderFooter (data : List DailyCommandCount) (dims : Dimensions)
    (textColor : String) (getColor : ℕ → String) : String :=
  let footerY := dims.topMargin + dims.graphHeight + 18
  let legendSquareSize : ℕ := 10
  let legendGap : ℕ := 3
  let totalCommands := data.foldl (fun sum d => sum + d.count) 0
  let totalDays := data.length
  let legendX := dims.leftMargin
  let svg := "<text x=\"" ++ toString legendX ++ "\" y=\"" ++ toString footerY
    ++ "\" fill=\"" ++ textColor
    ++ "\" font-size=\"11\" font-family=\"monospace\" dominant-baseline=\"middle\">Less</text>"
  let intensities : List ℕ := [0, 1, 3, 5, 6, 7, 8, 9]
  let squaresStartX := legendX + 35
  let svg := svg ++ ((List.range intensities.length).foldl (fun acc i =>
    let intensity := intensities.getD i 0
    let x := squaresStartX + i * (legendSquareSize + legendGap)
    let y : ℚ := (footerY : ℚ) - (legendSquareSize : ℚ) / 2
    let color := getColor intensity
    acc ++ "<rect x=\"" ++ toString x ++ "\" y=\"" ++ numStr y ++ "\" width=\""
      ++ toString legendSquareSize ++ "\" height=\"" ++ toString legendSquareSize
      ++ "\" fill=\"" ++ color ++ "\" rx=\"2\"/>") (""))
  let moreX := squaresStartX + intensities.length * (legendSquareSize + legendGap) + 5
  let svg := svg ++ "<text x=\"" ++ toString moreX ++ "\" y=\"" ++ toString footerY
    ++ "\" fill=\"" ++ textColor
    ++ "\" font-size=\"11\" font-family=\"monospace\" dominant-baseline=\"middle\">More</text>"
  let statsText := jsLocaleString totalCommands ++ " commands over " ++ toString totalDays
    ++ " days"
  let statsX := dims.width - 10
  svg ++ "<text x=\"" ++ toString statsX ++ "\" y=\"" ++ toString footerY
    ++ "\" fill=\"" ++ textColor
    ++ "\" font-size=\"11\" font-family=\"monospace\" dominant-baseline=\"middle\" text-anchor=\"end\">"
    ++ statsText ++ "</text>"

/-- `createColorScale`: the chroma-js computations (lab-space scale with
lightness correction, and the two brightened colors) are supplied by the
abstract `chroma` capability; the returned closure is translated verbatim. -/
def createColorScale (chroma : String → ChromaScale) (baseColor cellBackground : String) :
    ℕ → String :=
  let sc := chroma baseColor
  fun intensity =>
    if intensity = 0 then cellBackground
    else if intensity ≤ 7 then sc.colors.getD intensity ("")
    else if intensity = 8 then sc.bright1
    else sc.bright2

/-! ### generateContributionGraph -/
/-- The loop that synthesizes a year of zero-count days for empty input;
`fuel` is only the structural termination device. -/
def syntheticGo (endDate : ℤ) : ℕ → ℤ → List DailyCommandCount
  | 0, _ => []
  | fuel + 1, currentDate =>
    if currentDate ≤ endDate then
      { date := currentDate, count := 0 } :: syntheticGo endDate fuel (currentDate + 1)
    else []

/-- The start of the synthesized range: `today` with the year decremented
(JS `setFullYear(getFullYear() - 1)`, including the Feb-29 rollover). -/
def yearStart (today : ℤ) : ℤ :=
  daysFromCivil ((civilFromDays today).1 - 1)
    (civilFromDays today).2.1 (civilFromDays today).2.2

def syntheticYear (today : ℤ) : List DailyCommandCount :=
  syntheticGo today (today + 1 - yearStart today).toNat (yearStart today)

/-- `generateContributionGraph`.  `today` models `new Date()`; `chroma`
models the chroma-js library.  The result is `none` exactly when the JS
code would compute `-Infinity` dimensions from an empty cell list. -/
def generateContributionGraph (chroma : String → ChromaScale)
    (data : List DailyCommandCount) (options : SvgOptions) (today : ℤ) : Option String :=
  let cellSize := options.cellSize.getD 12
  let cellGap := options.cellGap.getD 3
  let showMonthLabels := options.showMonthLabels.getD true
  let showDayLabels := options.showDayLabels.getD true
  let showFooter := options.showFooter.getD true
  let baseColor := options.baseColor.getD ("#fb7185")
  let textColor := options.textColor.getD ("#57606a")
  let cellBackground := options.cellBackground.getD ("#ebedf0")
  let processedData := if data.length = 0 then syntheticYear today else data
  let intensityMap := calculateIntensityMap processedData
  let cells := generateCells processedData intensityMap cellSize cellGap
  (calculateDimensions cells cellSize cellGap showDayLabels showMonthLabels showFooter).map
    (fun dims =>
      let getColor := createColorScale chroma baseColor cellBackground
      let svg := "<svg width=\"" ++ toString dims.width ++ "\" height=\""
        ++ toString dims.height ++ "\" xmlns=\"http://www.w3.org/2000/svg\">"
      let svg := if showDayLabels then svg ++ renderDayLabels dims cellSize cellGap textColor
        else svg
      let svg := if showMonthLabels then svg ++ renderMonthLabels cells dims.leftMargin textColor
        else svg
      let svg := svg ++ renderCells cells dims.leftMargin dims.topMargin cellSize getColor
      let svg := svg ++ renderMonthSeparators cells dims.leftMargin dims.topMargin cellSize
        cellGap textColor
      let svg := if showFooter then svg ++ renderFooter processedData dims textColor getColor
        else svg
      svg ++ "</svg>")

/-! ### The grid in closed form -/
/-- The cell the grid loop produces for offset `i` from the starting Sunday. -/
def gridCell (dataMap intensityMap : List (ℤ × ℕ)) (cellSize cellGap : ℕ)
    (startDate : ℤ) (i : ℕ) : Cell :=
  { date := startDate + i
    count := (dataMap.lookup (startDate + i)).getD 0
    x := (i / 7) * (cellSize + cellGap)
    y := (i % 7) * (cellSize + cellGap)
    intensity := (intensityMap.lookup (startDate + i)).getD 0 }

/-! ### Claim-side description of the intensity buckets -/
/-- The sorted list of strictly positive counts of the series (the list on
which the source computes its `log10` percentile thresholds). -/
def sortedPositiveCounts (data : List DailyCommandCount) : List ℕ :=
  jsSort (fun a b : ℕ => a ≤ b) ((data.map (fun d => d.count)).filter (fun c => 0 < c))

/-- The claim's percentile cut point for bucket `b ∈ 1..8`: the element of
the sorted positive counts at 0-based index `max(0, ceil(p/100 * n) - 1)`,
where `p` is the `b`-th of the percentages 10, 25, 40, 55, 70, 80, 88, 94.
(The claim phrases the comparison on `log10(count + 1)` values; `log10` is
strictly increasing, so the cut points are represented by the counts.) -/
def claimCutPoint (sortedPos : List ℕ) (b : ℕ) : ℕ :=
  let p := [10, 25, 40, 55, 70, 80, 88, 94].getD (b - 1) 0
  sortedPos.getD ((p * sortedPos.length + 99) / 100 - 1) 0

/-- The claim's bucket for a count: 0 for count 0, otherwise the smallest
bucket in 1..8 whose cut point is ≥ the count, and 9 if none is. -/
def claimBucket (sortedPos : List ℕ) (c : ℕ) : ℕ :=
  if c = 0 then 0
  else
    match [1, 2, 3, 4, 5, 6, 7, 8].find? (fun b => c ≤ claimCutPoint sortedPos b) with
    | some b => b
    | none => 9

/-- The cut point the program actually computes for bucket `b ∈ 1..8`: the
element `getPercentile` selects with its IEEE-754 index arithmetic at the
`b`-th of the percentages 10, 25, 40, 55, 70, 80, 88, 94.  It differs from
`claimCutPoint` whenever the double rounding pushes the ceiling up — e.g.
at 100 positive counts the 55th-percentile index is 55, not 54. -/
def codeCutPoint (sortedPos : List ℕ) (b : ℕ) : ℕ :=
  getPercentile sortedPos ([10, 25, 40, 55, 70, 80, 88, 94].getD (b - 1) 0)

/-- The bucket the program assigns to a count: as `claimBucket`, but with
the program's IEEE-754 cut points. -/
def codeBucket (sortedPos : List ℕ) (c : ℕ) : ℕ :=
  if c = 0 then 0
  else
    match [1, 2, 3, 4, 5, 6, 7, 8].find? (fun b => c ≤ codeCutPoint sortedPos b) with
    | some b => b
    | none => 9

/-- The month-label candidate recorded at a cell: the cell's lowercase
three-letter month abbreviation, the cell's x position and its
day-of-month. -/
def candidateAt (leftMargin : ℕ) (c : Cell) : MonthPos :=
  { month := MONTHS.getD (jsGetMonth c.date).toNat ("")
    x := leftMargin + c.x
    day := jsGetDate c.date }

/-- The claim's candidate collection over the cells after the first: one
candidate at every cell whose calendar month differs from the previous
cell's month (the first argument carries the previous cell's month). -/
def claimPairs (leftMargin : ℕ) : ℤ → List Cell → List MonthPos
  | _, [] => []
  | prevMonth, c :: rest =>
    if jsGetMonth c.date ≠ prevMonth then
      candidateAt leftMargin c :: claimPairs leftMargin (jsGetMonth c.date) rest
    else claimPairs leftMargin (jsGetMonth c.date) rest

/-- The claim's full candidate list: the first cell always yields a
candidate (there is no previous cell), then one candidate per month
change. -/
def claimCandidates (leftMargin : ℕ) : List Cell → List MonthPos
  | [] => []
  | c :: rest => candidateAt leftMargin c :: claimPairs leftMargin (jsGetMonth c.date) rest

/-- The claim's drop rule: the first candidate is dropped exactly when its
recorded day-of-month is greater than 7. -/
def claimDropFirst : List MonthPos → List MonthPos
  | [] => []
  | p :: rest => if p.day > 7 then rest else p :: rest

/-- One step of the `monthGroups` fold (named so the fold can be reasoned
about by induction; `monthGroups` is definitionally this fold from `[]`). -/
def monthGroupsStep (groups : List (String × List Cell)) (cell : Cell) :
    List (String × List Cell) :=
  let key := monthKey cell.date
  if groups.any (fun g => g.1 = key) then
    groups.map (fun g => if g.1 = key then (g.1, g.2 ++ [cell]) else g)
  else groups ++ [(key, [cell])]

/-- The consecutive pairs of month keys for which the source attempts a
separator path: the keys in JS string-sort order, zipped with their tail. -/
def codeSeparatorPairs (cells : List Cell) : List (String × String) :=
  (sortedMonthKeys cells).zip (sortedMonthKeys cells).tail

/-- Chronological order on `(year, 0-based month)` pairs: by calendar year,
then by calendar month. -/
def yearMonthLe (a b : ℤ × ℤ) : Bool :=
  if a.1 = b.1 then a.2 ≤ b.2 else a.1 ≤ b.1

/-- The distinct month keys of the grid in chronological order (sorted by
calendar year then calendar month), as the claim reads. -/
def chronMonthKeys (cells : List Cell) : List String :=
  (jsSort yearMonthLe
      ((cells.map (fun c => (jsGetFullYear c.date, jsGetMonth c.date))).dedup)).map
    (fun p => toString p.1 ++ "-" ++ toString p.2)

/-- The separator pairs the claim describes: consecutive pairs of the
chronologically ordered month keys. -/
def claimSeparatorPairs (cells : List Cell) : List (String × String) :=
  (chronMonthKeys cells).zip (chronMonthKeys cells).tail

/-- No `'o'` immediately followed by `' '` anywhere in the character list
(the placeholder text `"no data"` contains such a pair, so a string whose
characters avoid the pair cannot contain the placeholder). -/
def noOSpaceB : List Char → Bool
  | [] => true
  | [_] => true
  | a :: b :: rest => (!(a == 'o' && b == ' ')) && noOSpaceB (b :: rest)

/-- Strings that are safe to concatenate without ever forming the pair
`'o'`-then-`' '`: no such pair inside, and the last character is not `'o'`. -/
def GoodStr (s : String) : Prop :=
  noOSpaceB s.data = true ∧ s.data.getLast? ≠ some 'o'

/-- Strings containing no `'o'` at all (digit strings, hex colors, …). -/
def NoO (s : String) : Prop := ∀ c ∈ s.data, c ≠ 'o'

instance (s : String) : Decidable (NoO s) :=
  inferInstanceAs (Decidable (∀ c ∈ s.data, c ≠ 'o'))

instance (s : String) : Decidable (GoodStr s) :=
  inferInstanceAs (Decidable (noOSpaceB s.data = true ∧ s.data.getLast? ≠ some 'o'))

/-! ### Concrete data used by witnesses and counterexamples -/

/-- The spec's five-point series with counts 0, 1, 10, 100, 1000
(dates are arbitrary distinct day numbers). -/
def witnessSeries5 : List DailyCommandCount :=
  [{ date := 0, count := 0 }, { date := 1, count := 1 }, { date := 2, count := 10 },
   { date := 3, count := 100 }, { date := 4, count := 1000 }]

/-- One hundred days with counts 1..100: at 100 positive counts the IEEE
index of the 55th percentile (`ceil(0.55 * 100) - 1 = 55`, since
`0.55 * 100 = 55.000000000000004` in binary64) differs from the exact
formula's index 54. -/
def witnessCount100 : List DailyCommandCount :=
  (List.range 100).map (fun i : ℕ => { date := (i : ℤ), count := i + 1 })

/-- A series spanning 2024-01-15 … 2024-02-02 (day numbers 19737, 19755). -/
def witnessJan15 : List DailyCommandCount :=
  [{ date := 19737, count := 1 }, { date := 19755, count := 1 }]

/-- A series spanning 2024-01-03 … 2024-02-02 (day numbers 19725, 19755). -/
def witnessJan3 : List DailyCommandCount :=
  [{ date := 19725, count := 1 }, { date := 19755, count := 1 }]

/-- A series spanning 2024-09-28 … 2024-11-02 (day numbers 19994, 20029):
the generated grid contains September, October and November 2024. -/
def witnessSepNov : List DailyCommandCount :=
  [{ date := 19994, count := 1 }, { date := 20029, count := 1 }]

/-- A concrete stand-in for the chroma-js color computations. -/
def witnessChroma : String → ChromaScale := fun _ =>
  { colors := [("#101010"), ("#202020"), ("#303030"), ("#404040"),
               ("#505050"), ("#606060"), ("#707070"), ("#808080")]
    bright1 := "#909090"
    bright2 := "#919191" }

theorem roundtrip_core (era c q yq doy : ℤ)
    (hc : 0 ≤ c ∧ c ≤ 3) (hq : 0 ≤ q ∧ q ≤ 24) (hyq : 0 ≤ yq ∧ yq ≤ 3)
    (hdoy : 0 ≤ doy ∧ doy ≤ 365) :
    (let yoe := 100 * c + 4 * q + yq
     let y := yoe + era * 400
     let mp := (5 * doy + 2) / 153
     let d := doy - (153 * mp + 2) / 5 + 1
     let m := if mp < 10 then mp + 3 else mp - 9
     daysFromCivil (if m ≤ 2 then y + 1 else y) m d)
    = 146097 * era + 36524 * c + 1461 * q + 365 * yq + doy - 719468 := by
  simp only [daysFromCivil]
  have hmp : 0 ≤ (5 * doy + 2) / 153 ∧ (5 * doy + 2) / 153 ≤ 11 := by omega
  split <;> split <;> omega

/-- The two calendar conversions are mutually inverse: converting a day
number to a civil date and back is the identity. -/
theorem daysFromCivil_civilFromDays (z : ℤ) :
    daysFromCivil (civilFromDays z).1 (civilFromDays z).2.1 (civilFromDays z).2.2 = z := by
  have h := roundtrip_core ((z + 719468) / 146097)
    (min ((z + 719468 - 146097 * ((z + 719468) / 146097)) / 36524) 3)
    (min ((z + 719468 - 146097 * ((z + 719468) / 146097) -
      36524 * min ((z + 719468 - 146097 * ((z + 719468) / 146097)) / 36524) 3) / 1461) 24)
    (min ((z + 719468 - 146097 * ((z + 719468) / 146097) -
        36524 * min ((z + 719468 - 146097 * ((z + 719468) / 146097)) / 36524) 3 -
        1461 * min ((z + 719468 - 146097 * ((z + 719468) / 146097) -
          36524 * min ((z + 719468 - 146097 * ((z + 719468) / 146097)) / 36524) 3) / 1461) 24) / 365) 3)
    ((z + 719468 - 146097 * ((z + 719468) / 146097) -
        36524 * min ((z + 719468 - 146097 * ((z + 719468) / 146097)) / 36524) 3 -
        1461 * min ((z + 719468 - 146097 * ((z + 719468) / 146097) -
          36524 * min ((z + 719468 - 146097 * ((z + 719468) / 146097)) / 36524) 3) / 1461) 24) -
      365 * min ((z + 719468 - 146097 * ((z + 719468) / 146097) -
        36524 * min ((z + 719468 - 146097 * ((z + 719468) / 146097)) / 36524) 3 -
        1461 * min ((z + 719468 - 146097 * ((z + 719468) / 146097) -
          36524 * min ((z + 719468 - 146097 * ((z + 719468) / 146097)) / 36524) 3) / 1461) 24) / 365) 3)
    (by omega) (by omega) (by omega) (by omega)
  simp only [civilFromDays]
  convert h using 2
  omega

/-- Moving a civil date one year back (as JS `setFullYear(y - 1)` does)
moves the day number back by 365 or 366 days. -/
theorem daysFromCivil_year_sub_one (y m d : ℤ) :
    365 ≤ daysFromCivil y m d - daysFromCivil (y - 1) m d ∧
      daysFromCivil y m d - daysFromCivil (y - 1) m d ≤ 366 := by
  simp only [daysFromCivil]
  split <;> omega

theorem lookup_cons {V : Type} (k : ℤ) (p : ℤ × V) (l : List (ℤ × V)) :
    (p :: l).lookup k = if k = p.1 then some p.2 else l.lookup k := by
  by_cases h : k = p.1
  · have hb : (k == p.1) = true := beq_iff_eq.mpr h
    simp [List.lookup, hb, h]
  · have hb : (k == p.1) = false := by simpa using h
    simp [List.lookup, hb, h]

theorem lookup_map_replace {V : Type} (m : List (ℤ × V)) (k : ℤ) (v : V) :
    (m.map (fun p => if p.1 = k then (k, v) else p)).lookup k
      = if m.any (fun p => p.1 = k) then some v else none := by
  induction m with
  | nil => simp
  | cons p rest ih =>
    by_cases hp : p.1 = k
    · simp [lookup_cons, hp]
    · simp [lookup_cons, hp, Ne.symm hp, ih]
      rw [decide_eq_false hp, Bool.false_or]

theorem lookup_map_replace_ne {V : Type} (m : List (ℤ × V)) (k k' : ℤ) (v : V) (h : k' ≠ k) :
    (m.map (fun p => if p.1 = k then (k, v) else p)).lookup k' = m.lookup k' := by
  induction m with
  | nil => simp
  | cons p rest ih =>
    by_cases hp : p.1 = k
    · simp [lookup_cons, hp, if_neg h, ih]
    · simp [lookup_cons, hp, ih]

theorem lookup_eq_none_of_not_any {V : Type} (m : List (ℤ × V)) (k : ℤ)
    (h : ¬ m.any (fun p => p.1 = k) = true) : m.lookup k = none := by
  induction m with
  | nil => rfl
  | cons p rest ih =>
    simp only [List.any_cons, Bool.or_eq_true, decide_eq_true_iff, not_or] at h
    rw [lookup_cons, if_neg (fun hk => h.1 (hk.symm)), ih (by simpa using h.2)]

theorem lookup_append_single {V : Type} (m : List (ℤ × V)) (k : ℤ) (v : V)
    (hnone : m.lookup k = none) : (m ++ [(k, v)]).lookup k = some v := by
  induction m with
  | nil => simp [lookup_cons]
  | cons p rest ih =>
    rw [lookup_cons] at hnone
    rcases Classical.em (k = p.1) with h | h
    · simp [h] at hnone
    · rw [List.cons_append, lookup_cons, if_neg h]
      exact ih (by simpa [h] using hnone)

theorem lookup_append_single_ne {V : Type} (m : List (ℤ × V)) (k k' : ℤ) (v : V)
    (h : k' ≠ k) : (m ++ [(k, v)]).lookup k' = m.lookup k' := by
  induction m with
  | nil => simp [lookup_cons, h]
  | cons p rest ih =>
    rw [List.cons_append, lookup_cons, lookup_cons, ih]

theorem lookup_mapSet_self {V : Type} (m : List (ℤ × V)) (k : ℤ) (v : V) :
    (mapSet m k v).lookup k = some v := by
  unfold mapSet
  split
  case isTrue h => rw [lookup_map_replace, if_pos h]
  case isFalse h => exact lookup_append_single m k v (lookup_eq_none_of_not_any m k h)

theorem lookup_mapSet_ne {V : Type} (m : List (ℤ × V)) (k k' : ℤ) (v : V) (h : k' ≠ k) :
    (mapSet m k v).lookup k' = m.lookup k' := by
  unfold mapSet
  split
  · exact lookup_map_replace_ne m k k' v h
  · exact lookup_append_single_ne m k k' v h

theorem jsSortInsert_perm {α : Type} (le : α → α → Bool) (a : α) (l : List α) :
    (jsSortInsert le a l).Perm (a :: l) := by
  induction l with
  | nil => exact List.Perm.refl _
  | cons b rest ih =>
    rw [jsSortInsert]
    split
    · exact List.Perm.refl _
    · exact (List.Perm.cons b ih).trans (List.Perm.swap a b rest)

theorem jsSort_perm {α : Type} (le : α → α → Bool) (l : List α) :
    (jsSort le l).Perm l := by
  induction l with
  | nil => exact List.Perm.refl _
  | cons a rest ih =>
    exact (jsSortInsert_perm le a (jsSort le rest)).trans (List.Perm.cons a ih)

theorem jsSort_length {α : Type} (le : α → α → Bool) (l : List α) :
    (jsSort le l).length = l.length :=
  (jsSort_perm le l).length_eq

theorem jsSort_mem {α : Type} (le : α → α → Bool) (l : List α) (a : α) :
    a ∈ jsSort le l ↔ a ∈ l :=
  (jsSort_perm le l).mem_iff

theorem generateCellsGo_eq (dataMap intensityMap : List (ℤ × ℕ)) (cellSize cellGap : ℕ)
    (lastDate startDate : ℤ) (hsun : jsGetDay startDate = 0) :
    ∀ (n i : ℕ), lastDate + 1 - (startDate + i) = (n : ℤ) →
      generateCellsGo dataMap intensityMap cellSize cellGap lastDate n (startDate + i) (i / 7)
        = (List.range n).map (fun j => gridCell dataMap intensityMap cellSize cellGap
            startDate (i + j)) := by
  intro n
  induction n with
  | zero => intro i _; rfl
  | succ n ih =>
    intro i hn
    have hguard : startDate + i ≤ lastDate := by omega
    have hday : jsGetDay (startDate + i) = ((i % 7 : ℕ) : ℤ) := by
      simp only [jsGetDay] at hsun ⊢
      omega
    rw [generateCellsGo, if_pos hguard]
    have hwi : (if jsGetDay (startDate + i) = 6 then i / 7 + 1 else i / 7) = (i + 1) / 7 := by
      rw [hday]
      split
      case isTrue h => omega
      case isFalse h =>
        have : ¬ (i % 7 = 6) := fun hc => h (by rw [hc]; rfl)
        omega
    have harg : startDate + i + 1 = startDate + ((i + 1 : ℕ) : ℤ) := by push_cast; omega
    rw [hwi, harg, ih (i + 1) (by omega)]
    rw [List.range_succ_eq_map, List.map_cons, List.map_map]
    congr 1
    · simp only [gridCell, hday, Int.toNat_natCast, Nat.add_zero]
    · apply List.map_congr_left
      intro j _
      have hj : i + 1 + j = i + (j + 1) := by omega
      simp [Function.comp, hj]

/-- `generateCells` on non-empty input, in closed form: one cell per day
offset `i` in `[0, N)` from the starting Sunday. -/
theorem generateCells_eq (first : DailyCommandCount) (rest : List DailyCommandCount)
    (intensityMap : List (ℤ × ℕ)) (cellSize cellGap : ℕ) :
    generateCells (first :: rest) intensityMap cellSize cellGap
      = (List.range ((((first :: rest).getLast?.getD first).date + 1
            - (first.date - jsGetDay first.date)).toNat)).map
          (fun j => gridCell
            ((first :: rest).foldl (fun m d => mapSet m d.date d.count) [])
            intensityMap cellSize cellGap (first.date - jsGetDay first.date) j) := by
  have hsun : jsGetDay (first.date - jsGetDay first.date) = 0 := by
    simp only [jsGetDay]; omega
  have hd : 0 ≤ jsGetDay first.date ∧ jsGetDay first.date < 7 := by
    simp only [jsGetDay]
    constructor
    · exact Int.emod_nonneg _ (by norm_num)
    · exact Int.emod_lt_of_pos _ (by norm_num)
  rcases le_or_lt (first.date - jsGetDay first.date)
      ((((first :: rest).getLast?.getD first).date) + 1) with hcase | hcase
  · have h := generateCellsGo_eq
      ((first :: rest).foldl (fun m d => mapSet m d.date d.count) [])
      intensityMap cellSize cellGap (((first :: rest).getLast?.getD first).date)
      (first.date - jsGetDay first.date) hsun
      (((((first :: rest).getLast?.getD first).date) + 1
        - (first.date - jsGetDay first.date)).toNat) 0 (by push_cast; omega)
    simpa [generateCells] using h
  · have hzero : (((((first :: rest).getLast?.getD first).date) + 1
        - (first.date - jsGetDay first.date)).toNat) = 0 := by omega
    simp only [generateCells, hzero, List.range_zero, List.map_nil]
    rfl

/-! ### Lookups in maps built by folding `mapSet` -/
theorem lookup_foldl_mapSet_not_mem {V : Type} (g : DailyCommandCount → V)
    (l : List DailyCommandCount) (m0 : List (ℤ × V)) (k : ℤ)
    (h : k ∉ l.map (fun d => d.date)) :
    (l.foldl (fun m it => mapSet m it.date (g it)) m0).lookup k = m0.lookup k := by
  induction l generalizing m0 with
  | nil => rfl
  | cons hd tl ih =>
    simp only [List.map_cons, List.mem_cons, not_or] at h
    rw [List.foldl_cons, ih _ h.2, lookup_mapSet_ne _ _ _ _ h.1]

theorem lookup_foldl_mapSet_mem {V : Type} (g : DailyCommandCount → V)
    (l : List DailyCommandCount) (m0 : List (ℤ × V)) (it : DailyCommandCount)
    (hnd : (l.map (fun d => d.date)).Nodup) (hit : it ∈ l) :
    (l.foldl (fun m itm => mapSet m itm.date (g itm)) m0).lookup it.date = some (g it) := by
  induction l generalizing m0 with
  | nil => cases hit
  | cons hd tl ih =>
    simp only [List.map_cons, List.nodup_cons] at hnd
    rcases List.mem_cons.mp hit with heq | hmem
    · subst heq
      rw [List.foldl_cons,
        lookup_foldl_mapSet_not_mem g tl _ it.date hnd.1,
        lookup_mapSet_self]
    · exact List.foldl_cons _ _ ▸ ih _ hnd.2 hmem

/-- `codeBucket` on a positive count, written as the source's if-chain. -/
theorem codeBucket_pos_eq_chain (sortedPos : List ℕ) (c : ℕ) (hc : c ≠ 0) :
    codeBucket sortedPos c =
      (if c ≤ codeCutPoint sortedPos 1 then 1
       else if c ≤ codeCutPoint sortedPos 2 then 2
       else if c ≤ codeCutPoint sortedPos 3 then 3
       else if c ≤ codeCutPoint sortedPos 4 then 4
       else if c ≤ codeCutPoint sortedPos 5 then 5
       else if c ≤ codeCutPoint sortedPos 6 then 6
       else if c ≤ codeCutPoint sortedPos 7 then 7
       else if c ≤ codeCutPoint sortedPos 8 then 8
       else 9) := by
  rw [codeBucket, if_neg hc]
  by_cases h1 : c ≤ codeCutPoint sortedPos 1
  · rw [List.find?_cons_of_pos _ (by simpa using h1), if_pos h1]
  rw [List.find?_cons_of_neg _ (by simpa using h1), if_neg h1]
  by_cases h2 : c ≤ codeCutPoint sortedPos 2
  · rw [List.find?_cons_of_pos _ (by simpa using h2), if_pos h2]
  rw [List.find?_cons_of_neg _ (by simpa using h2), if_neg h2]
  by_cases h3 : c ≤ codeCutPoint sortedPos 3
  · rw [List.find?_cons_of_pos _ (by simpa using h3), if_pos h3]
  rw [List.find?_cons_of_neg _ (by simpa using h3), if_neg h3]
  by_cases h4 : c ≤ codeCutPoint sortedPos 4
  · rw [List.find?_cons_of_pos _ (by simpa using h4), if_pos h4]
  rw [List.find?_cons_of_neg _ (by simpa using h4), if_neg h4]
  by_cases h5 : c ≤ codeCutPoint sortedPos 5
  · rw [List.find?_cons_of_pos _ (by simpa using h5), if_pos h5]
  rw [List.find?_cons_of_neg _ (by simpa using h5), if_neg h5]
  by_cases h6 : c ≤ codeCutPoint sortedPos 6
  · rw [List.find?_cons_of_pos _ (by simpa using h6), if_pos h6]
  rw [List.find?_cons_of_neg _ (by simpa using h6), if_neg h6]
  by_cases h7 : c ≤ codeCutPoint sortedPos 7
  · rw [List.find?_cons_of_pos _ (by simpa using h7), if_pos h7]
  rw [List.find?_cons_of_neg _ (by simpa using h7), if_neg h7]
  by_cases h8 : c ≤ codeCutPoint sortedPos 8
  · rw [List.find?_cons_of_pos _ (by simpa using h8), if_pos h8]
  rw [List.find?_cons_of_neg _ (by simpa using h8), if_neg h8, List.find?_nil]

/-- Auxiliary monotonicity of first-satisfied search over an ascending
bucket list: a weaker predicate can only be satisfied earlier. -/
theorem find?_bucket_mono (l : List ℕ) (d : ℕ) (p q : ℕ → Bool)
    (hsort : l.Pairwise (fun a b => a ≤ b)) (hd : ∀ x ∈ l, x ≤ d)
    (himp : ∀ b, q b = true → p b = true) :
    (match l.find? p with | some b => b | none => d)
      ≤ (match l.find? q with | some b => b | none => d) := by
  induction l with
  | nil => simp
  | cons x rest ih =>
    rcases List.pairwise_cons.mp hsort with ⟨hx, hrest⟩
    by_cases hp : p x = true
    · rw [List.find?_cons_of_pos _ hp]
      by_cases hq : q x = true
      · rw [List.find?_cons_of_pos _ hq]
      · rw [List.find?_cons_of_neg _ (by simpa using hq)]
        cases hfq : rest.find? q with
        | none => exact hd x (List.mem_cons_self x rest)
        | some b => exact hx b (List.mem_of_find?_eq_some hfq)
    · have hq : ¬ q x = true := fun hh => hp (himp x hh)
      rw [List.find?_cons_of_neg _ (by simpa using hp),
        List.find?_cons_of_neg _ (by simpa using hq)]
      exact ih hrest (fun y hy => hd y (List.mem_cons_of_mem x hy))

/-- The bucket a count receives is monotone in the count, for the
program's cut points (as for any fixed thresholds). -/
theorem codeBucket_mono (sortedPos : List ℕ) (c₁ c₂ : ℕ) (h : c₁ ≤ c₂) :
    codeBucket sortedPos c₁ ≤ codeBucket sortedPos c₂ := by
  by_cases hc1 : c₁ = 0
  · rw [codeBucket, if_pos hc1]
    exact Nat.zero_le _
  · have hc2 : c₂ ≠ 0 := by omega
    rw [codeBucket, if_neg hc1, codeBucket, if_neg hc2]
    exact find?_bucket_mono [1, 2, 3, 4, 5, 6, 7, 8] 9
      (fun b => decide (c₁ ≤ codeCutPoint sortedPos b))
      (fun b => decide (c₂ ≤ codeCutPoint sortedPos b))
      (by decide) (by decide)
      (fun b hb => by
        simp only [decide_eq_true_iff] at hb ⊢
        omega)

/-- The core characterization of `calculateIntensityMap`: provided the dates
of the series are distinct, the intensity recorded for each item is exactly
the program's bucket of its count (smallest bucket whose IEEE-computed cut
point is ≥ the count). -/
theorem calculateIntensityMap_lookup (data : List DailyCommandCount)
    (hnd : (data.map (fun d => d.date)).Nodup) (it : DailyCommandCount) (hit : it ∈ data) :
    (calculateIntensityMap data).lookup it.date
      = some (codeBucket (sortedPositiveCounts data) it.count) := by
  simp only [calculateIntensityMap]
  split
  case isTrue hlen =>
    have hcount : it.count = 0 := by
      have hempty : ((data.map (fun d => d.count)).filter (fun c => 0 < c)) = [] := by
        rw [← List.length_eq_zero, ← jsSort_length (fun a b : ℕ => decide (a ≤ b))]
        exact hlen
      by_contra hne
      have hmem : it.count ∈ (data.map (fun d => d.count)).filter (fun c => 0 < c) := by
        rw [List.mem_filter]
        exact ⟨List.mem_map_of_mem _ hit, by simpa using Nat.pos_of_ne_zero hne⟩
      rw [hempty] at hmem
      cases hmem
    rw [lookup_foldl_mapSet_mem (fun _ => 0) data [] it hnd hit]
    rw [codeBucket, if_pos hcount]
  case isFalse hlen =>
    show (data.foldl (fun m itm =>
        if itm.count = 0 then mapSet m itm.date 0
        else mapSet m itm.date
          (if itm.count ≤ getPercentile (sortedPositiveCounts data) 10 then 1
           else if itm.count ≤ getPercentile (sortedPositiveCounts data) 25 then 2
           else if itm.count ≤ getPercentile (sortedPositiveCounts data) 40 then 3
           else if itm.count ≤ getPercentile (sortedPositiveCounts data) 55 then 4
           else if itm.count ≤ getPercentile (sortedPositiveCounts data) 70 then 5
           else if itm.count ≤ getPercentile (sortedPositiveCounts data) 80 then 6
           else if itm.count ≤ getPercentile (sortedPositiveCounts data) 88 then 7
           else if itm.count ≤ getPercentile (sortedPositiveCounts data) 94 then 8
           else 9)) []).lookup it.date
      = some (codeBucket (sortedPositiveCounts data) it.count)
    have hfun : (fun (m : List (ℤ × ℕ)) (itm : DailyCommandCount) =>
        if itm.count = 0 then mapSet m itm.date 0
        else mapSet m itm.date
          (if itm.count ≤ getPercentile (sortedPositiveCounts data) 10 then 1
           else if itm.count ≤ getPercentile (sortedPositiveCounts data) 25 then 2
           else if itm.count ≤ getPercentile (sortedPositiveCounts data) 40 then 3
           else if itm.count ≤ getPercentile (sortedPositiveCounts data) 55 then 4
           else if itm.count ≤ getPercentile (sortedPositiveCounts data) 70 then 5
           else if itm.count ≤ getPercentile (sortedPositiveCounts data) 80 then 6
           else if itm.count ≤ getPercentile (sortedPositiveCounts data) 88 then 7
           else if itm.count ≤ getPercentile (sortedPositiveCounts data) 94 then 8
           else 9))
        = (fun (m : List (ℤ × ℕ)) (itm : DailyCommandCount) =>
            mapSet m itm.date (codeBucket (sortedPositiveCounts data) itm.count)) := by
      funext m itm
      by_cases hz : itm.count = 0
      · rw [if_pos hz, codeBucket, if_pos hz]
      · rw [if_neg hz, codeBucket_pos_eq_chain _ _ hz]
        rfl
    rw [hfun]
    exact lookup_foldl_mapSet_mem _ data [] it hnd hit

/-- A date that never occurs in the series is absent from the intensity map. -/
theorem calculateIntensityMap_lookup_none (data : List DailyCommandCount) (k : ℤ)
    (h : k ∉ data.map (fun d => d.date)) :
    (calculateIntensityMap data).lookup k = none := by
  simp only [calculateIntensityMap]
  split
  · exact lookup_foldl_mapSet_not_mem (fun _ => 0) data [] k h
  · show (data.foldl (fun m itm =>
        if itm.count = 0 then mapSet m itm.date 0
        else mapSet m itm.date
          (if itm.count ≤ getPercentile (sortedPositiveCounts data) 10 then 1
           else if itm.count ≤ getPercentile (sortedPositiveCounts data) 25 then 2
           else if itm.count ≤ getPercentile (sortedPositiveCounts data) 40 then 3
           else if itm.count ≤ getPercentile (sortedPositiveCounts data) 55 then 4
           else if itm.count ≤ getPercentile (sortedPositiveCounts data) 70 then 5
           else if itm.count ≤ getPercentile (sortedPositiveCounts data) 80 then 6
           else if itm.count ≤ getPercentile (sortedPositiveCounts data) 88 then 7
           else if itm.count ≤ getPercentile (sortedPositiveCounts data) 94 then 8
           else 9)) []).lookup k = none
    have hfun : (fun (m : List (ℤ × ℕ)) (itm : DailyCommandCount) =>
        if itm.count = 0 then mapSet m itm.date 0
        else mapSet m itm.date
          (if itm.count ≤ getPercentile (sortedPositiveCounts data) 10 then 1
           else if itm.count ≤ getPercentile (sortedPositiveCounts data) 25 then 2
           else if itm.count ≤ getPercentile (sortedPositiveCounts data) 40 then 3
           else if itm.count ≤ getPercentile (sortedPositiveCounts data) 55 then 4
           else if itm.count ≤ getPercentile (sortedPositiveCounts data) 70 then 5
           else if itm.count ≤ getPercentile (sortedPositiveCounts data) 80 then 6
           else if itm.count ≤ getPercentile (sortedPositiveCounts data) 88 then 7
           else if itm.count ≤ getPercentile (sortedPositiveCounts data) 94 then 8
           else 9))
        = (fun (m : List (ℤ × ℕ)) (itm : DailyCommandCount) =>
            mapSet m itm.date (if itm.count = 0 then 0 else
              (if itm.count ≤ getPercentile (sortedPositiveCounts data) 10 then 1
               else if itm.count ≤ getPercentile (sortedPositiveCounts data) 25 then 2
               else if itm.count ≤ getPercentile (sortedPositiveCounts data) 40 then 3
               else if itm.count ≤ getPercentile (sortedPositiveCounts data) 55 then 4
               else if itm.count ≤ getPercentile (sortedPositiveCounts data) 70 then 5
               else if itm.count ≤ getPercentile (sortedPositiveCounts data) 80 then 6
               else if itm.count ≤ getPercentile (sortedPositiveCounts data) 88 then 7
               else if itm.count ≤ getPercentile (sortedPositiveCounts data) 94 then 8
               else 9))) := by
      funext m itm
      by_cases hz : itm.count = 0 <;> simp [hz]
    rw [hfun]
    exact lookup_foldl_mapSet_not_mem _ data [] k h

/-! ### Dimension computation in closed form -/

theorem calculateDimensions_eq (cells : List Cell) (cellSize cellGap : ℕ)
    (sdl sml sf : Bool) (m : ℕ) (hmax : (cells.map (fun c => c.x)).max? = some m) :
    calculateDimensions cells cellSize cellGap sdl sml sf = some
      { width := (if sdl then 30 else 10) + (m + cellSize + cellGap) + 10
        height := (if sml then 20 else 10) + 7 * (cellSize + cellGap) + (if sf then 35 else 10)
        leftMargin := if sdl then 30 else 10
        topMargin := if sml then 20 else 10
        graphWidth := m + cellSize + cellGap
        graphHeight := 7 * (cellSize + cellGap) } := by
  simp [calculateDimensions, hmax]

/-! ### The synthetic year in closed form -/

theorem syntheticGo_eq (endDate : ℤ) :
    ∀ (n : ℕ) (cur : ℤ), endDate + 1 - cur = (n : ℤ) →
      syntheticGo endDate n cur
        = (List.range n).map (fun i => { date := cur + i, count := 0 }) := by
  intro n
  induction n with
  | zero => intro cur _; rfl
  | succ n ih =>
    intro cur h
    rw [syntheticGo, if_pos (by omega)]
    rw [ih (cur + 1) (by push_cast at h ⊢; omega)]
    rw [List.range_succ_eq_map, List.map_cons, List.map_map]
    congr 1
    · simp
    · apply List.map_congr_left
      intro j _
      simp only [Function.comp]
      congr 1
      push_cast
      omega

theorem yearStart_bounds (today : ℤ) :
    365 ≤ today - yearStart today ∧ today - yearStart today ≤ 366 := by
  have hrt := daysFromCivil_civilFromDays today
  have hy := daysFromCivil_year_sub_one (civilFromDays today).1
    (civilFromDays today).2.1 (civilFromDays today).2.2
  unfold yearStart
  omega

theorem syntheticYear_eq (today : ℤ) :
    syntheticYear today = (List.range ((today + 1 - yearStart today).toNat)).map
      (fun i => { date := yearStart today + i, count := 0 }) := by
  have hb := yearStart_bounds today
  unfold syntheticYear
  exact syntheticGo_eq today _ (yearStart today) (by omega)

theorem syntheticYear_sorted (today : ℤ) :
    ((syntheticYear today).map (fun d => d.date)).Pairwise (fun a b => a < b) := by
  rw [syntheticYear_eq, List.map_map]
  refine List.Pairwise.map _ ?_ (List.pairwise_lt_range _)
  intro a b hab
  simp only [Function.comp]
  omega

theorem syntheticYear_cons (today : ℤ) :
    ∃ r, syntheticYear today
      = ({ date := yearStart today, count := 0 } : DailyCommandCount) :: r := by
  have hb := yearStart_bounds today
  obtain ⟨n, hn⟩ : ∃ n : ℕ, (today + 1 - yearStart today).toNat = n + 1 :=
    ⟨(today + 1 - yearStart today).toNat - 1, by omega⟩
  refine ⟨(List.range n).map
    (fun i => { date := yearStart today + ((i + 1 : ℕ) : ℤ), count := 0 }), ?_⟩
  rw [syntheticYear_eq, hn, List.range_succ_eq_map, List.map_cons, List.map_map]
  congr 1
  simp

/-- The first date of a series sorted strictly ascending is at most the
last date. -/
theorem head_le_getLastD (f : DailyCommandCount) (r : List DailyCommandCount)
    (hsorted : ((f :: r).map (fun d => d.date)).Pairwise (fun a b => a < b)) :
    f.date ≤ ((f :: r).getLast?.getD f).date := by
  induction r generalizing f with
  | nil => simp
  | cons s t ih =>
    rw [List.getLast?_cons_cons]
    have htail : ((s :: t).map (fun d => d.date)).Pairwise (fun a b => a < b) := by
      simp only [List.map_cons, List.pairwise_cons] at hsorted ⊢
      exact hsorted.2
    have hfs : f.date < s.date := by
      simp only [List.map_cons, List.pairwise_cons] at hsorted
      exact hsorted.1 s.date (by simp)
    have hs := ih s htail
    cases hlast : (s :: t).getLast? with
    | none => simp [List.getLast?_eq_none_iff] at hlast
    | some L =>
      rw [hlast] at hs
      simp only [Option.getD_some] at hs ⊢
      omega

/-- Non-emptiness of the generated grid when the series is non-empty with
first date ≤ last date. -/
theorem generateCells_length (f : DailyCommandCount) (r : List DailyCommandCount)
    (im : List (ℤ × ℕ)) (cellSize cellGap : ℕ) :
    (generateCells (f :: r) im cellSize cellGap).length
      = ((((f :: r).getLast?.getD f).date + 1 - (f.date - jsGetDay f.date)).toNat) := by
  rw [generateCells_eq]
  simp

theorem generateCells_ne_nil (f : DailyCommandCount) (r : List DailyCommandCount)
    (im : List (ℤ × ℕ)) (cellSize cellGap : ℕ)
    (hle : f.date ≤ ((f :: r).getLast?.getD f).date) :
    generateCells (f :: r) im cellSize cellGap ≠ [] := by
  have hdow : 0 ≤ jsGetDay f.date ∧ jsGetDay f.date < 7 := by
    simp only [jsGetDay]
    exact ⟨Int.emod_nonneg _ (by norm_num), Int.emod_lt_of_pos _ (by norm_num)⟩
  have hlen := generateCells_length f r im cellSize cellGap
  intro hnil
  rw [hnil] at hlen
  simp only [List.length_nil] at hlen
  omega

/-- Output shape of `generateContributionGraph` whenever the processed
series is a non-empty list whose first date is at most its last date. -/
theorem gcg_shape (chroma : String → ChromaScale) (data : List DailyCommandCount)
    (opts : SvgOptions) (today : ℤ) (f : DailyCommandCount) (r : List DailyCommandCount)
    (hproc : (if data.length = 0 then syntheticYear today else data) = f :: r)
    (hle : f.date ≤ ((f :: r).getLast?.getD f).date) :
    ∃ w h body, 0 < w ∧ 0 < h ∧
      generateContributionGraph chroma data opts today
        = some ("<svg width=\"" ++ toString w ++ "\" height=\"" ++ toString h
            ++ "\" xmlns=\"http://www.w3.org/2000/svg\">" ++ body ++ "</svg>") := by
  have hne := generateCells_ne_nil f r (calculateIntensityMap (f :: r))
    (opts.cellSize.getD 12) (opts.cellGap.getD 3) hle
  have hmapne : (generateCells (f :: r) (calculateIntensityMap (f :: r))
      (opts.cellSize.getD 12) (opts.cellGap.getD 3)).map (fun c => c.x) ≠ [] := by
    simpa using hne
  cases hmax : ((generateCells (f :: r) (calculateIntensityMap (f :: r))
      (opts.cellSize.getD 12) (opts.cellGap.getD 3)).map (fun c => c.x)).max? with
  | none => exact absurd (List.max?_eq_none_iff.mp hmax) hmapne
  | some m =>
    have hdims := calculateDimensions_eq
      (generateCells (f :: r) (calculateIntensityMap (f :: r))
        (opts.cellSize.getD 12) (opts.cellGap.getD 3))
      (opts.cellSize.getD 12) (opts.cellGap.getD 3)
      (opts.showDayLabels.getD true) (opts.showMonthLabels.getD true)
      (opts.showFooter.getD true) m hmax
    refine ⟨(if opts.showDayLabels.getD true then 30 else 10)
        + (m + opts.cellSize.getD 12 + opts.cellGap.getD 3) + 10,
      (if opts.showMonthLabels.getD true then 20 else 10)
        + 7 * (opts.cellSize.getD 12 + opts.cellGap.getD 3)
        + (if opts.showFooter.getD true then 35 else 10),
      (if opts.showDayLabels.getD true then
          renderDayLabels
            { width := (if opts.showDayLabels.getD true then 30 else 10)
                + (m + opts.cellSize.getD 12 + opts.cellGap.getD 3) + 10
              height := (if opts.showMonthLabels.getD true then 20 else 10)
                + 7 * (opts.cellSize.getD 12 + opts.cellGap.getD 3)
                + (if opts.showFooter.getD true then 35 else 10)
              leftMargin := if opts.showDayLabels.getD true then 30 else 10
              topMargin := if opts.showMonthLabels.getD true then 20 else 10
              graphWidth := m + opts.cellSize.getD 12 + opts.cellGap.getD 3
              graphHeight := 7 * (opts.cellSize.getD 12 + opts.cellGap.getD 3) }
            (opts.cellSize.getD 12) (opts.cellGap.getD 3) (opts.textColor.getD ("#57606a"))
        else "")
      ++ ((if opts.showMonthLabels.getD true then
            renderMonthLabels
              (generateCells (f :: r) (calculateIntensityMap (f :: r))
                (opts.cellSize.getD 12) (opts.cellGap.getD 3))
              (if opts.showDayLabels.getD true then 30 else 10)
              (opts.textColor.getD ("#57606a"))
          else "")
      ++ (renderCells
            (generateCells (f :: r) (calculateIntensityMap (f :: r))
              (opts.cellSize.getD 12) (opts.cellGap.getD 3))
            (if opts.showDayLabels.getD true then 30 else 10)
            (if opts.showMonthLabels.getD true then 20 else 10)
            (opts.cellSize.getD 12)
            (createColorScale chroma (opts.baseColor.getD ("#fb7185"))
              (opts.cellBackground.getD ("#ebedf0")))
      ++ (renderMonthSeparators
            (generateCells (f :: r) (calculateIntensityMap (f :: r))
              (opts.cellSize.getD 12) (opts.cellGap.getD 3))
            (if opts.showDayLabels.getD true then 30 else 10)
            (if opts.showMonthLabels.getD true then 20 else 10)
            (opts.cellSize.getD 12) (opts.cellGap.getD 3) (opts.textColor.getD ("#57606a"))
      ++ (if opts.showFooter.getD true then
            renderFooter (f :: r)
              { width := (if opts.showDayLabels.getD true then 30 else 10)
                  + (m + opts.cellSize.getD 12 + opts.cellGap.getD 3) + 10
                height := (if opts.showMonthLabels.getD true then 20 else 10)
                  + 7 * (opts.cellSize.getD 12 + opts.cellGap.getD 3)
                  + (if opts.showFooter.getD true then 35 else 10)
                leftMargin := if opts.showDayLabels.getD true then 30 else 10
                topMargin := if opts.showMonthLabels.getD true then 20 else 10
                graphWidth := m + opts.cellSize.getD 12 + opts.cellGap.getD 3
                graphHeight := 7 * (opts.cellSize.getD 12 + opts.cellGap.getD 3) }
              (opts.textColor.getD ("#57606a"))
              (createColorScale chroma (opts.baseColor.getD ("#fb7185"))
                (opts.cellBackground.getD ("#ebedf0")))
          else "")))),
      ?_, ?_, ?_⟩
    · have h10a : (10 : ℕ) ≤ if opts.showDayLabels.getD true then 30 else 10 := by
        split <;> omega
      omega
    · have h10b : (10 : ℕ) ≤ if opts.showMonthLabels.getD true then 20 else 10 := by
        split <;> omega
      have h10c : (10 : ℕ) ≤ if opts.showFooter.getD true then 35 else 10 := by
        split <;> omega
      omega
    · simp only [generateContributionGraph, hproc, hdims, Option.map_some']
      cases hb1 : opts.showDayLabels.getD true <;>
        cases hb2 : opts.showMonthLabels.getD true <;>
          cases hb5 : opts.showFooter.getD true <;>
            simp [String.append_assoc]

/-- C7: `generateContributionGraph` is total on its documented input domain
(a series of distinct ascending dates, empty allowed): it always returns an
output that starts with the root svg open tag carrying positive integer
width/height attributes and ends with the matching close tag — in
particular `calculateDimensions`' `Math.max` never sees an empty cell list
(the `Option` never becomes `none`). -/
theorem claim_C7 (chroma : String → ChromaScale) (data : List DailyCommandCount)
    (opts : SvgOptions) (today : ℤ)
    (hsorted : (data.map (fun d => d.date)).Pairwise (fun a b => a < b)) :
    ∃ w h body, 0 < w ∧ 0 < h ∧
      generateContributionGraph chroma data opts today
        = some ("<svg width=\"" ++ toString w ++ "\" height=\"" ++ toString h
            ++ "\" xmlns=\"http://www.w3.org/2000/svg\">" ++ body ++ "</svg>") := by
  cases data with
  | nil =>
    obtain ⟨r, hr⟩ := syntheticYear_cons today
    have hs := syntheticYear_sorted today
    rw [hr] at hs
    exact gcg_shape chroma [] opts today _ r (by simpa using hr)
      (head_le_getLastD _ r hs)
  | cons f r =>
    exact gcg_shape chroma (f :: r) opts today f r (by simp)
      (head_le_getLastD f r hsorted)

theorem claim_C7_witness :
    ((witnessJan15.map (fun d => d.date)).Pairwise (fun a b => a < b)) ∧
    (∃ w h body, 0 < w ∧ 0 < h ∧
      generateContributionGraph witnessChroma witnessJan15 {} 0
        = some ("<svg width=\"" ++ toString w ++ "\" height=\"" ++ toString h
            ++ "\" xmlns=\"http://www.w3.org/2000/svg\">" ++ body ++ "</svg>")) :=
  ⟨by decide, claim_C7 witnessChroma witnessJan15 {} 0 (by decide)⟩

/-! ### Month labels in closed form -/

/-- JS `getMonth()` is never negative, so it never equals the `-1`
sentinel that the candidate loop starts from. -/
theorem jsGetMonth_nonneg (z : ℤ) : 0 ≤ jsGetMonth z := by
  simp only [jsGetMonth, civilFromDays]
  split <;> omega

/-- The candidate-collection fold equals the claim's recursion, for any
starting month and accumulator. -/
theorem foldl_monthLabelStep (lm : ℕ) (m : ℤ) (acc : List MonthPos) (cells : List Cell) :
    (cells.foldl (monthLabelStep lm) (m, acc)).2 = acc ++ claimPairs lm m cells := by
  induction cells generalizing m acc with
  | nil => simp [claimPairs]
  | cons c rest ih =>
    rw [List.foldl_cons]
    by_cases hm : jsGetMonth c.date ≠ m
    · have hstep : monthLabelStep lm (m, acc) c
          = (jsGetMonth c.date, acc ++ [candidateAt lm c]) := by
        simp [monthLabelStep, candidateAt, hm]
      rw [hstep, ih]
      simp [claimPairs, hm]
    · push_neg at hm
      have hstep : monthLabelStep lm (m, acc) c = (m, acc) := by
        simp [monthLabelStep, hm]
      rw [hstep, ih]
      simp [claimPairs, hm]

/-- `renderMonthLabels` is exactly: collect one candidate per month change
(first cell always included), drop the first candidate when its recorded
day-of-month exceeds 7, render the rest. -/
theorem renderMonthLabels_eq_claim (cells : List Cell) (lm : ℕ) (tc : String) :
    renderMonthLabels cells lm tc
      = joinSep ("") ((claimDropFirst (claimCandidates lm cells)).map (monthPosText tc)) := by
  cases cells with
  | nil => simp [renderMonthLabels, claimCandidates, claimDropFirst, joinSep]
  | cons c rest =>
    have hne : jsGetMonth c.date ≠ -1 := by
      have := jsGetMonth_nonneg c.date
      omega
    have hstep : monthLabelStep lm (-1, ([] : List MonthPos)) c
        = (jsGetMonth c.date, [candidateAt lm c]) := by
      simp [monthLabelStep, candidateAt, hne]
    simp only [renderMonthLabels, List.foldl_cons, hstep, foldl_monthLabelStep,
      List.singleton_append, claimCandidates, claimDropFirst]

/-! ### Month separators: structural facts -/

/-- Every cell of a generated grid sits in one of the seven day rows. -/
theorem generateCells_y_row (data : List DailyCommandCount) (im : List (ℤ × ℕ))
    (cs gap : ℕ) :
    ∀ cl ∈ generateCells data im cs gap, ∃ rr : ℕ, rr < 7 ∧ cl.y = rr * (cs + gap) := by
  cases data with
  | nil => intro cl hcl; simp [generateCells] at hcl
  | cons f r =>
    rw [generateCells_eq]
    intro cl hcl
    simp only [List.mem_map, List.mem_range] at hcl
    obtain ⟨j, _, rfl⟩ := hcl
    exact ⟨j % 7, Nat.mod_lt _ (by norm_num), rfl⟩

theorem monthGroups_eq_foldl (cells : List Cell) :
    monthGroups cells = cells.foldl monthGroupsStep [] := rfl

/-- Invariant of the grouping fold: every group is non-empty and all its
members satisfy any property all folded cells satisfy. -/
theorem foldl_monthGroupsStep_invariant (P : Cell → Prop) :
    ∀ (cells : List Cell) (acc : List (String × List Cell)),
      (∀ cl ∈ cells, P cl) →
      (∀ g ∈ acc, g.2 ≠ [] ∧ ∀ cl ∈ g.2, P cl) →
      ∀ g ∈ cells.foldl monthGroupsStep acc, g.2 ≠ [] ∧ ∀ cl ∈ g.2, P cl := by
  intro cells
  induction cells with
  | nil => intro acc _ hacc; simpa using hacc
  | cons c rest ih =>
    intro acc hc hacc
    rw [List.foldl_cons]
    refine ih _ (fun cl hcl => hc cl (by simp [hcl])) ?_
    intro g hg
    have hPc : P c := hc c (by simp)
    simp only [monthGroupsStep] at hg
    by_cases hany : acc.any (fun g => g.1 = monthKey c.date)
    · rw [if_pos hany] at hg
      obtain ⟨g0, hg0, rfl⟩ := List.mem_map.mp hg
      by_cases hkey : g0.1 = monthKey c.date
      · rw [if_pos hkey]
        obtain ⟨hne, hmem⟩ := hacc g0 hg0
        refine ⟨by simp, ?_⟩
        intro cl hcl
        rcases List.mem_append.mp hcl with hcl | hcl
        · exact hmem cl hcl
        · rw [List.mem_singleton.mp hcl]; exact hPc
      · rw [if_neg hkey]
        exact hacc g0 hg0
    · rw [if_neg hany] at hg
      rcases List.mem_append.mp hg with hg | hg
      · exact hacc g hg
      · rw [List.mem_singleton.mp hg]
        exact ⟨by simp, fun cl hcl => by rw [List.mem_singleton.mp hcl]; exact hPc⟩

/-- Every group of `monthGroups` over a generated grid is non-empty, with
all members drawn from the grid. -/
theorem monthGroups_invariant (data : List DailyCommandCount) (im : List (ℤ × ℕ))
    (cs gap : ℕ) :
    ∀ g ∈ monthGroups (generateCells data im cs gap),
      g.2 ≠ [] ∧ ∀ cl ∈ g.2, cl ∈ generateCells data im cs gap := by
  rw [monthGroups_eq_foldl]
  exact foldl_monthGroupsStep_invariant _ _ [] (fun cl hcl => hcl) (by simp)

/-- `List.lookup` finds a binding for every key occurring in the list. -/
theorem lookup_of_mem_keys {β : Type} (l : List (String × β)) (k : String)
    (h : k ∈ l.map (fun g => g.1)) :
    ∃ v, l.lookup k = some v ∧ (k, v) ∈ l := by
  induction l with
  | nil => simp at h
  | cons p rest ih =>
    simp only [List.map_cons, List.mem_cons] at h
    by_cases hk : k = p.1
    · refine ⟨p.2, ?_, by simp [hk]⟩
      simp [List.lookup, hk]
    · obtain ⟨v, hv, hmem⟩ := ih (h.resolve_left hk)
      refine ⟨v, ?_, List.mem_cons_of_mem _ hmem⟩
      have hbeq : (k == p.1) = false := by simpa using hk
      simp [List.lookup, hbeq, hv]

/-- A set `currentX` survives each further row of the separator walk. -/
theorem sepRow_isSome_persist (p c : List Cell) (lm tm cs gap : ℕ) (rad : ℚ)
    (st : SepState) (row : ℕ) (h : st.currentX.isSome = true) :
    ((sepRow p c lm tm cs gap rad st row).currentX).isSome = true := by
  simp only [sepRow]
  split
  · exact h
  · cases hst : st.currentX with
    | none => simp [hst] at h
    | some x =>
      simp only [hst]
      rw [apply_ite SepState.currentX, apply_ite Option.isSome]
      simp [hst]

/-- A row containing a cell of either month sets `currentX`. -/
theorem sepRow_isSome_trigger (p c : List Cell) (lm tm cs gap : ℕ) (rad : ℚ)
    (st : SepState) (row : ℕ)
    (h : ¬((p.filter (fun cl => cl.y = row * (cs + gap))).length = 0
        ∧ (c.filter (fun cl => cl.y = row * (cs + gap))).length = 0)) :
    ((sepRow p c lm tm cs gap rad st row).currentX).isSome = true := by
  simp only [sepRow]
  rw [if_neg h]
  cases hst : st.currentX with
  | none => simp [hst]
  | some x =>
    simp only [hst]
    rw [apply_ite SepState.currentX, apply_ite Option.isSome]
    simp [hst]

theorem sepRow_foldl_persist (p c : List Cell) (lm tm cs gap : ℕ) (rad : ℚ)
    (l : List ℕ) (st : SepState) (h : st.currentX.isSome = true) :
    ((l.foldl (sepRow p c lm tm cs gap rad) st).currentX).isSome = true := by
  induction l generalizing st with
  | nil => exact h
  | cons a t ih => exact ih _ (sepRow_isSome_persist _ _ _ _ _ _ _ _ _ h)

theorem sepRow_foldl_isSome (p c : List Cell) (lm tm cs gap : ℕ) (rad : ℚ)
    (l : List ℕ) (st : SepState) (row : ℕ) (hrow : row ∈ l)
    (h : ¬((p.filter (fun cl => cl.y = row * (cs + gap))).length = 0
        ∧ (c.filter (fun cl => cl.y = row * (cs + gap))).length = 0)) :
    ((l.foldl (sepRow p c lm tm cs gap rad) st).currentX).isSome = true := by
  induction l generalizing st with
  | nil => simp at hrow
  | cons a t ih =>
    rw [List.foldl_cons]
    rcases List.mem_cons.mp hrow with rfl | hmem
    · exact sepRow_foldl_persist _ _ _ _ _ _ _ _ _
        (sepRow_isSome_trigger _ _ _ _ _ _ _ _ _ h)
    · exact ih _ hmem

/-- The separator walk produces a path whenever the previous month group
contains at least one cell lying in one of the seven rows. -/
theorem sepPathFor_isSome (p c : List Cell) (lm tm cs gap : ℕ) (sc : String)
    (a : Cell) (ha : a ∈ p) (rr : ℕ) (hrr : rr < 7) (hy : a.y = rr * (cs + gap)) :
    (sepPathFor p c lm tm cs gap sc).isSome = true := by
  have hfilter : ¬((p.filter (fun cl => cl.y = rr * (cs + gap))).length = 0
      ∧ (c.filter (fun cl => cl.y = rr * (cs + gap))).length = 0) := by
    intro hcon
    have hmem : a ∈ p.filter (fun cl => cl.y = rr * (cs + gap)) := by
      simp [List.mem_filter, ha, hy]
    rw [List.length_eq_zero.mp hcon.1] at hmem
    simp at hmem
  have hfold := sepRow_foldl_isSome p c lm tm cs gap (2 + (gap : ℚ) / 2)
    (List.range 7) { path := [], currentX := none } rr (List.mem_range.mpr hrr) hfilter
  simp only [sepPathFor]
  cases hst : ((List.range 7).foldl (sepRow p c lm tm cs gap (2 + (gap : ℚ) / 2))
      { path := [], currentX := none }).currentX with
  | none => rw [hst] at hfold; simp at hfold
  | some x => simp [hst]

/-- `filterMap` collapses to `map`-with-default when the function succeeds
on every element. -/
theorem filterMap_eq_map_getD {α β : Type} (fn : α → Option β) (d : β) (l : List α)
    (h : ∀ x ∈ l, (fn x).isSome = true) :
    l.filterMap fn = l.map (fun x => (fn x).getD d) := by
  induction l with
  | nil => rfl
  | cons a t ih =>
    rw [List.filterMap_cons, List.map_cons]
    cases hfa : fn a with
    | none =>
      have := h a (by simp)
      rw [hfa] at this
      simp at this
    | some b =>
      simp [ih (fun x hx => h x (by simp [hx]))]

/-! ### Character-set facts for the rendered text -/

theorem digitChar_ne_o (m : ℕ) : Nat.digitChar m ≠ 'o' := by
  rcases Nat.lt_or_ge m 16 with h | h
  · interval_cases m <;> decide
  · unfold Nat.digitChar
    iterate 16 rw [if_neg (by omega)]
    decide

theorem toDigitsCore_chars (b : ℕ) : ∀ (fuel n : ℕ) (ds : List Char),
    (∀ c ∈ ds, c ≠ 'o') → ∀ c ∈ Nat.toDigitsCore b fuel n ds, c ≠ 'o' := by
  intro fuel
  induction fuel with
  | zero => intro n ds hds; simpa [Nat.toDigitsCore] using hds
  | succ fuel ih =>
    intro n ds hds c hc
    simp only [Nat.toDigitsCore] at hc
    by_cases hz : n / b = 0
    · rw [if_pos hz] at hc
      rcases List.mem_cons.mp hc with rfl | hmem
      · exact digitChar_ne_o _
      · exact hds c hmem
    · rw [if_neg hz] at hc
      exact ih (n / b) _ (by
        intro d hd
        rcases List.mem_cons.mp hd with rfl | hmem
        · exact digitChar_ne_o _
        · exact hds d hmem) c hc

theorem NoO_toString_nat (n : ℕ) : NoO (toString n) := by
  intro c hc
  have hmem : c ∈ Nat.toDigits 10 n := by
    simpa [Nat.repr, List.asString] using hc
  exact toDigitsCore_chars 10 (n + 1) n [] (by simp) c (by simpa [Nat.toDigits] using hmem)

theorem NoO_toString_int (i : ℤ) : NoO (toString i) := by
  cases i with
  | ofNat m =>
    intro c hc
    exact NoO_toString_nat m c hc
  | negSucc m =>
    intro c hc
    have hq : (toString (Int.negSucc m)).data = ("-").data ++ (Nat.repr (m + 1)).data := by
      rw [show toString (Int.negSucc m) = ("-") ++ Nat.repr (m + 1) from rfl,
        String.data_append]
    rw [hq] at hc
    rcases List.mem_append.mp hc with hc | hc
    · rw [List.mem_singleton.mp hc]; decide
    · exact NoO_toString_nat (m + 1) c hc

theorem NoO_append (a b : String) (ha : NoO a) (hb : NoO b) : NoO (a ++ b) := by
  intro c hc
  rw [String.data_append] at hc
  rcases List.mem_append.mp hc with hc | hc
  · exact ha c hc
  · exact hb c hc

theorem NoO_toString_rat (q : ℚ) : NoO (toString q) := by
  have hq : toString q
      = if q.den = 1 then toString q.num
        else ("") ++ toString q.num ++ ("/") ++ toString q.den ++ ("") := rfl
  rw [hq]
  split
  · exact NoO_toString_int q.num
  · exact NoO_append _ _ (NoO_append _ _ (NoO_append _ _ (NoO_append _ _
      (by intro c hc; simp at hc) (NoO_toString_int q.num)) (by decide))
      (NoO_toString_nat q.den)) (by intro c hc; simp at hc)

theorem NoO_numStr (q : ℚ) : NoO (numStr q) := by
  unfold numStr
  split
  · exact NoO_toString_int q.num
  · split
    · refine NoO_append _ _ (NoO_append _ _ ?_ (NoO_toString_nat (q.num.natAbs / 2))) (by decide)
      split
      · decide
      · intro c hc; simp at hc
    · exact NoO_toString_rat q

theorem localeGroup_chars : ∀ (fuel : ℕ) (s : List Char),
    (∀ c ∈ s, c ≠ 'o') → ∀ c ∈ localeGroup fuel s, c ≠ 'o' := by
  intro fuel
  induction fuel with
  | zero => intro s hs; simpa [localeGroup] using hs
  | succ fuel ih =>
    intro s hs c hc
    simp only [localeGroup] at hc
    split at hc
    · exact hs c hc
    · rcases List.mem_append.mp hc with hc | hc
      · exact ih _ (fun d hd => hs d (List.mem_of_mem_take hd)) c hc
      · rcases List.mem_cons.mp hc with rfl | hc
        · decide
        · exact hs c (List.mem_of_mem_drop hc)

theorem NoO_jsLocaleString (n : ℕ) : NoO (jsLocaleString n) := by
  intro c hc
  have hc' : c ∈ localeGroup (Nat.repr n).length (Nat.repr n).data := hc
  exact localeGroup_chars _ _ (fun d hd => NoO_toString_nat n d hd) c hc'

/-! ### Composition rules for `GoodStr` -/

theorem noOSpaceB_cons (a : Char) (l : List Char) (h : noOSpaceB (a :: l) = true) :
    noOSpaceB l = true := by
  cases l with
  | nil => rfl
  | cons b t =>
    simp only [noOSpaceB, Bool.and_eq_true] at h
    exact h.2

theorem noOSpaceB_append : ∀ (a b : List Char), noOSpaceB a = true → noOSpaceB b = true →
    a.getLast? ≠ some 'o' → noOSpaceB (a ++ b) = true := by
  intro a
  induction a with
  | nil => intro b _ hb _; simpa using hb
  | cons x t ih =>
    intro b ha hb hlast
    cases t with
    | nil =>
      cases b with
      | nil => simpa using ha
      | cons y u =>
        have hx : x ≠ 'o' := by simpa using hlast
        simp only [List.cons_append, List.nil_append, noOSpaceB, Bool.and_eq_true]
        refine ⟨?_, hb⟩
        have : (x == 'o') = false := by simpa using hx
        simp [this]
    | cons z u =>
      simp only [noOSpaceB, Bool.and_eq_true] at ha
      have hlast' : (z :: u).getLast? ≠ some 'o' := by
        rwa [List.getLast?_cons_cons] at hlast
      have htail := ih b ha.2 hb hlast'
      simp only [List.cons_append] at htail ⊢
      simp only [noOSpaceB, Bool.and_eq_true]
      exact ⟨ha.1, by simpa using htail⟩

theorem GoodStr_append (a b : String) (ha : GoodStr a) (hb : GoodStr b) :
    GoodStr (a ++ b) := by
  constructor
  · rw [String.data_append]
    exact noOSpaceB_append _ _ ha.1 hb.1 ha.2
  · rw [String.data_append, List.getLast?_append]
    cases hbl : b.data.getLast? with
    | none => simpa [hbl, Option.or] using ha.2
    | some c =>
      have := hb.2
      rw [hbl] at this
      simpa [Option.or] using this

theorem GoodStr_empty : GoodStr ("") := ⟨rfl, by decide⟩

theorem noOSpaceB_of_noO : ∀ l : List Char, (∀ c ∈ l, c ≠ 'o') → noOSpaceB l = true := by
  intro l
  induction l with
  | nil => intro _; rfl
  | cons a t ih =>
    intro h
    cases t with
    | nil => rfl
    | cons b u =>
      simp only [noOSpaceB, Bool.and_eq_true]
      refine ⟨?_, ih (fun c hc => h c (List.mem_cons_of_mem _ hc))⟩
      have ha : a ≠ 'o' := h a (by simp)
      have : (a == 'o') = false := by simpa using ha
      simp [this]

theorem GoodStr_of_NoO (s : String) (h : NoO s) : GoodStr s := by
  refine ⟨noOSpaceB_of_noO _ h, ?_⟩
  intro hlast
  exact h 'o' (List.mem_of_mem_getLast? (by simp [hlast])) rfl

theorem GoodStr_joinSep (sep : String) (hsep : GoodStr sep) :
    ∀ pieces : List String, (∀ p ∈ pieces, GoodStr p) → GoodStr (joinSep sep pieces) := by
  intro pieces
  induction pieces with
  | nil => intro _; exact GoodStr_empty
  | cons a rest ih =>
    intro h
    cases rest with
    | nil => simpa [joinSep] using h a (by simp)
    | cons b t =>
      have ha := h a (by simp)
      have hrest := ih (fun p hp => h p (List.mem_cons_of_mem _ hp))
      exact GoodStr_append _ _ (GoodStr_append _ _ ha hsep) hrest

theorem GoodStr_foldl {α : Type} (f : String → α → String) :
    ∀ (l : List α) (init : String), GoodStr init →
      (∀ s a, GoodStr s → a ∈ l → GoodStr (f s a)) → GoodStr (l.foldl f init) := by
  intro l
  induction l with
  | nil => intro init hinit _; exact hinit
  | cons a t ih =>
    intro init hinit hstep
    rw [List.foldl_cons]
    exact ih _ (hstep init a hinit (by simp))
      (fun s x hs hx => hstep s x hs (List.mem_cons_of_mem _ hx))

/-! ### `"no data"` cannot occur in a `GoodStr` -/

theorem countSubstrAux_no_data : ∀ l : List Char, noOSpaceB l = true →
    countSubstrAux ("no data").data l = 0 := by
  intro l
  induction l with
  | nil => intro _; rfl
  | cons c rest ih =>
    intro h
    simp only [countSubstrAux]
    have hpre : ("no data").data.isPrefixOf (c :: rest) = false := by
      cases hcheck : ("no data").data.isPrefixOf (c :: rest) with
      | false => rfl
      | true =>
        exfalso
        rw [List.isPrefixOf_iff_prefix] at hcheck
        obtain ⟨t, ht⟩ := hcheck
        have hshape : c :: rest = 'n' :: 'o' :: ' ' :: (['d', 'a', 't', 'a'] ++ t) := by
          rw [← ht]; rfl
        have hc : c = 'n' := by injection hshape
        have hrest : rest = 'o' :: ' ' :: (['d', 'a', 't', 'a'] ++ t) := by
          injection hshape
        rw [hc, hrest] at h
        simp [noOSpaceB] at h
    rw [hpre]
    simp only [Bool.false_eq_true, if_false, Nat.zero_add]
    exact ih (noOSpaceB_cons _ _ h)

theorem containsSubstr_no_data (s : String) (h : GoodStr s) :
    containsSubstr s ("no data") = false := by
  simp only [containsSubstr, countSubstr, countSubstrAux_no_data s.data h.1]
  decide

/-! ### Lower bounds on substring counts -/

theorem countSubstrAux_append_le (pat : List Char) : ∀ a b : List Char,
    countSubstrAux pat a + countSubstrAux pat b ≤ countSubstrAux pat (a ++ b) := by
  intro a
  induction a with
  | nil => intro b; simp [countSubstrAux]
  | cons c rest ih =>
    intro b
    simp only [List.cons_append, countSubstrAux, List.append_eq]
    have hif : (if pat.isPrefixOf (c :: rest) = true then 1 else 0)
        ≤ (if pat.isPrefixOf (c :: (rest ++ b)) = true then 1 else 0) := by
      by_cases hp : pat.isPrefixOf (c :: rest) = true
      · have hp' : pat.isPrefixOf (c :: (rest ++ b)) = true := by
          rw [List.isPrefixOf_iff_prefix] at hp ⊢
          exact hp.trans (List.prefix_append _ b)
        simp [hp, hp']
      · simp [hp]
    have hihb := ih b
    omega

theorem countSubstr_append_left (a b pat : String) :
    countSubstr a pat ≤ countSubstr (a ++ b) pat := by
  have := countSubstrAux_append_le pat.data a.data b.data
  simp only [countSubstr, String.data_append]
  omega

theorem countSubstr_append_right (a b pat : String) :
    countSubstr b pat ≤ countSubstr (a ++ b) pat := by
  have := countSubstrAux_append_le pat.data a.data b.data
  simp only [countSubstr, String.data_append]
  omega

theorem countSubstrAux_pos_of_prefix (pat l : List Char) (hne : pat ≠ [])
    (h : pat.isPrefixOf l = true) : 1 ≤ countSubstrAux pat l := by
  cases l with
  | nil =>
    cases pat with
    | nil => exact absurd rfl hne
    | cons c cs => simp [List.isPrefixOf] at h
  | cons c rest =>
    simp only [countSubstrAux]
    rw [if_pos h]
    omega

theorem countSubstr_joinSep_ge (sep pat : String) (hne : pat.data ≠ []) :
    ∀ pieces : List String, (∀ p ∈ pieces, pat.data.isPrefixOf p.data = true) →
      pieces.length ≤ countSubstr (joinSep sep pieces) pat := by
  intro pieces
  induction pieces with
  | nil => intro _; simp [joinSep, countSubstr, countSubstrAux]
  | cons a rest ih =>
    intro h
    cases rest with
    | nil =>
      simpa [joinSep, countSubstr] using
        countSubstrAux_pos_of_prefix pat.data a.data hne (h a (by simp))
    | cons b t =>
      have h1 : 1 ≤ countSubstrAux pat.data a.data :=
        countSubstrAux_pos_of_prefix pat.data a.data hne (h a (by simp))
      have h2 := ih (fun p hp => h p (List.mem_cons_of_mem _ hp))
      have hsplit1 := countSubstrAux_append_le pat.data
        (a.data ++ sep.data) (joinSep sep (b :: t)).data
      have hsplit2 := countSubstrAux_append_le pat.data a.data sep.data
      have hform : joinSep sep (a :: b :: t) = a ++ sep ++ joinSep sep (b :: t) := rfl
      rw [hform]
      simp only [countSubstr, String.data_append] at h2 ⊢
      simp only [List.length_cons] at h2 ⊢
      omega

theorem NoO_empty : NoO ("") := by
  intro c hc
  simp at hc

theorem NoO_getD (l : List String) (i : ℕ) (h : ∀ s ∈ l, NoO s) : NoO (l.getD i ("")) := by
  rcases Nat.lt_or_ge i l.length with hi | hi
  · rw [List.getD_eq_getElem l ("") hi]
    exact h _ (l.getElem_mem hi)
  · rw [List.getD_eq_default _ _ hi]
    exact NoO_empty

theorem NoO_joinSep (sep : String) (hsep : NoO sep) :
    ∀ pieces : List String, (∀ p ∈ pieces, NoO p) → NoO (joinSep sep pieces) := by
  intro pieces
  induction pieces with
  | nil => intro _; exact NoO_empty
  | cons a rest ih =>
    intro h
    cases rest with
    | nil => simpa [joinSep] using h a (by simp)
    | cons b t =>
      exact NoO_append _ _ (NoO_append _ _ (h a (by simp)) hsep)
        (ih (fun p hp => h p (List.mem_cons_of_mem _ hp)))

theorem MONTHS_getD_Good (i : ℕ) : GoodStr (MONTHS.getD i ("")) := by
  rcases Nat.lt_or_ge i 12 with h | h
  · interval_cases i <;> decide
  · have hlen : MONTHS.length = 12 := rfl
    rw [List.getD_eq_default _ _ (by omega)]
    decide

/-! ### `GoodStr` for every fragment of the rendered svg -/

theorem renderDayLabels_Good (dims : Dimensions) (cs gap : ℕ) :
    GoodStr (renderDayLabels dims cs gap ("#57606a")) := by
  simp only [renderDayLabels]
  refine GoodStr_foldl _ _ _ GoodStr_empty ?_
  intro s i hs _
  dsimp only
  repeat' apply GoodStr_append
  all_goals
    first
    | exact hs
    | exact GoodStr_of_NoO _ (NoO_numStr _)
    | exact GoodStr_of_NoO _ (NoO_getD DAYS i (by decide))
    | decide

theorem createColorScale_NoO (chroma : String → ChromaScale) (base : String)
    (hc : ∀ col ∈ (chroma base).colors, NoO col) (h1 : NoO ((chroma base).bright1))
    (h2 : NoO ((chroma base).bright2)) (i : ℕ) :
    NoO (createColorScale chroma base ("#ebedf0") i) := by
  simp only [createColorScale]
  split
  · decide
  · split
    · exact NoO_getD _ _ hc
    · split
      · exact h1
      · exact h2

theorem cellRect_Good (lm tm cs : ℕ) (gc : ℕ → String) (hgc : ∀ i, NoO (gc i)) (c : Cell) :
    GoodStr (cellRect lm tm cs gc c) := by
  simp only [cellRect]
  repeat' apply GoodStr_append
  all_goals
    first
    | exact GoodStr_of_NoO _ (NoO_toString_nat _)
    | exact GoodStr_of_NoO _ (hgc _)
    | decide

theorem renderCells_Good (cells : List Cell) (lm tm cs : ℕ) (gc : ℕ → String)
    (hgc : ∀ i, NoO (gc i)) : GoodStr (renderCells cells lm tm cs gc) := by
  refine GoodStr_joinSep _ (by decide) _ ?_
  intro p hp
  obtain ⟨c, _, rfl⟩ := List.mem_map.mp hp
  exact cellRect_Good lm tm cs gc hgc c

theorem claimPairs_shape (lm : ℕ) :
    ∀ (pm : ℤ) (cells : List Cell) (pos : MonthPos), pos ∈ claimPairs lm pm cells →
      ∃ c, pos = candidateAt lm c := by
  intro pm cells
  induction cells generalizing pm with
  | nil => intro pos hpos; simp [claimPairs] at hpos
  | cons c rest ih =>
    intro pos hpos
    simp only [claimPairs] at hpos
    split at hpos
    · rcases List.mem_cons.mp hpos with rfl | hmem
      · exact ⟨c, rfl⟩
      · exact ih _ pos hmem
    · exact ih _ pos hpos

theorem claimCandidates_shape (lm : ℕ) (cells : List Cell) (pos : MonthPos)
    (h : pos ∈ claimCandidates lm cells) : ∃ c, pos = candidateAt lm c := by
  cases cells with
  | nil => simp [claimCandidates] at h
  | cons c rest =>
    simp only [claimCandidates] at h
    rcases List.mem_cons.mp h with rfl | hmem
    · exact ⟨c, rfl⟩
    · exact claimPairs_shape lm _ rest pos hmem

theorem claimDropFirst_subset (l : List MonthPos) : ∀ p ∈ claimDropFirst l, p ∈ l := by
  cases l with
  | nil => simp [claimDropFirst]
  | cons a t =>
    intro p hp
    simp only [claimDropFirst] at hp
    split at hp
    · exact List.mem_cons_of_mem _ hp
    · exact hp

theorem renderMonthLabels_Good (cells : List Cell) (lm : ℕ) :
    GoodStr (renderMonthLabels cells lm ("#57606a")) := by
  rw [renderMonthLabels_eq_claim]
  refine GoodStr_joinSep _ GoodStr_empty _ ?_
  intro p hp
  obtain ⟨pos, hpos, rfl⟩ := List.mem_map.mp hp
  obtain ⟨c, rfl⟩ := claimCandidates_shape lm cells pos (claimDropFirst_subset _ pos hpos)
  simp only [monthPosText, candidateAt]
  repeat' apply GoodStr_append
  all_goals
    first
    | exact GoodStr_of_NoO _ (NoO_toString_nat _)
    | exact MONTHS_getD_Good _
    | decide

theorem NoO_path_ite (cond : Prop) [inst : Decidable cond] (s₁ s₂ : SepState)
    (h₁ : ∀ p ∈ s₁.path, NoO p) (h₂ : ∀ p ∈ s₂.path, NoO p) :
    ∀ p ∈ (if cond then s₁ else s₂).path, NoO p := by
  split
  · exact h₁
  · exact h₂

theorem sepRow_path_NoO (prev curr : List Cell) (lm tm cs gap : ℕ) (rad : ℚ)
    (st : SepState) (row : ℕ) (h : ∀ p ∈ st.path, NoO p) :
    ∀ p ∈ (sepRow prev curr lm tm cs gap rad st row).path, NoO p := by
  simp only [sepRow]
  split
  · exact h
  · cases hst : st.currentX with
    | none =>
      simp only [hst]
      intro p hp
      try dsimp only at hp
      rcases List.mem_append.mp hp with hp | hp
      · exact h p hp
      · rw [List.mem_singleton.mp hp]
        repeat' apply NoO_append
        all_goals first | exact NoO_numStr _ | decide
    | some x =>
      simp only [hst]
      refine NoO_path_ite _ _ _ ?_ ?_ <;>
        first
        | exact h
        | (intro p hp
           try dsimp only at hp
           rcases List.mem_append.mp hp with hp | hp
           · exact h p hp
           · simp only [List.mem_cons, List.not_mem_nil, or_false] at hp
             rcases hp with rfl | rfl | rfl | rfl
             all_goals (repeat' apply NoO_append
                        all_goals first | exact NoO_numStr _ | decide))

theorem sepRow_foldl_path_NoO (prev curr : List Cell) (lm tm cs gap : ℕ) (rad : ℚ) :
    ∀ (l : List ℕ) (st : SepState), (∀ p ∈ st.path, NoO p) →
      ∀ p ∈ (l.foldl (sepRow prev curr lm tm cs gap rad) st).path, NoO p := by
  intro l
  induction l with
  | nil => intro st h; exact h
  | cons a t ih =>
    intro st h
    rw [List.foldl_cons]
    exact ih _ (sepRow_path_NoO _ _ _ _ _ _ _ _ _ h)

theorem sepPathFor_Good (prev curr : List Cell) (lm tm cs gap : ℕ) (sc : String)
    (hsc : GoodStr sc) (s : String)
    (h : sepPathFor prev curr lm tm cs gap sc = some s) : GoodStr s := by
  simp only [sepPathFor] at h
  cases hst : ((List.range 7).foldl (sepRow prev curr lm tm cs gap (2 + (gap : ℚ) / 2))
      { path := [], currentX := none }).currentX with
  | none => rw [hst] at h; cases h
  | some x =>
    rw [hst] at h
    injection h with h
    rw [← h]
    have hpath := sepRow_foldl_path_NoO prev curr lm tm cs gap (2 + (gap : ℚ) / 2)
      (List.range 7) { path := [], currentX := none } (by intro p hp; simp at hp)
    repeat' apply GoodStr_append
    all_goals
      first
      | exact hsc
      | decide
      | (refine GoodStr_of_NoO _ (NoO_joinSep _ (by decide) _ ?_)
         intro p hp
         rcases List.mem_append.mp hp with hp | hp
         · exact hpath p hp
         · rw [List.mem_singleton.mp hp]
           repeat' apply NoO_append
           all_goals first | exact NoO_numStr _ | decide)

theorem renderMonthSeparators_Good (cells : List Cell) (lm tm cs gap : ℕ) :
    GoodStr (renderMonthSeparators cells lm tm cs gap ("#57606a")) := by
  by_cases h0 : cells.length = 0
  · simp only [renderMonthSeparators]
    rw [if_pos h0]
    exact GoodStr_empty
  · simp only [renderMonthSeparators]
    rw [if_neg h0]
    by_cases h2 : (monthGroups cells).length < 2
    · rw [if_pos h2]
      exact GoodStr_empty
    · rw [if_neg h2]
      refine GoodStr_joinSep _ (by decide) _ ?_
      intro p hp
      obtain ⟨pr, _, hpr⟩ := List.mem_filterMap.mp hp
      exact sepPathFor_Good _ _ _ _ _ _ _ (by decide) p hpr

theorem renderFooter_Good (data : List DailyCommandCount) (dims : Dimensions)
    (gc : ℕ → String) (hgc : ∀ i, NoO (gc i)) :
    GoodStr (renderFooter data dims ("#57606a") gc) := by
  simp only [renderFooter]
  repeat' apply GoodStr_append
  all_goals
    first
    | exact GoodStr_of_NoO _ (NoO_toString_nat _)
    | exact GoodStr_of_NoO _ (NoO_numStr _)
    | exact GoodStr_of_NoO _ (NoO_jsLocaleString _)
    | exact GoodStr_of_NoO _ (hgc _)
    | exact GoodStr_empty
    | decide

/-- Every rendered cell rectangle starts with the element opener. -/
theorem cellRect_prefix (lm tm cs : ℕ) (gc : ℕ → String) (c : Cell) :
    ("<rect ").data.isPrefixOf (cellRect lm tm cs gc c).data = true := by
  rw [List.isPrefixOf_iff_prefix]
  simp only [cellRect, String.data_append, List.append_assoc]
  exact List.IsPrefix.trans ⟨('x' :: '=' :: '"' :: []), rfl⟩ (List.prefix_append _ _)

/-- `renderCells` contains at least one `<rect ` occurrence per cell. -/
theorem renderCells_count (cells : List Cell) (lm tm cs : ℕ) (gc : ℕ → String) :
    cells.length ≤ countSubstr (renderCells cells lm tm cs gc) ("<rect ") := by
  simp only [renderCells]
  have h := countSubstr_joinSep_ge ("\n") ("<rect ") (by decide)
    (cells.map (cellRect lm tm cs gc)) (by
      intro p hp
      obtain ⟨c, _, rfl⟩ := List.mem_map.mp hp
      exact cellRect_prefix lm tm cs gc c)
  simpa using h

/-- The synthesized series ends exactly at `today`. -/
theorem syntheticYear_getLast (today : ℤ) (d : DailyCommandCount) :
    (((syntheticYear today).getLast?).getD d).date = today := by
  have hb := yearStart_bounds today
  obtain ⟨k, hk⟩ : ∃ k, (today + 1 - yearStart today).toNat = k + 1 :=
    ⟨(today + 1 - yearStart today).toNat - 1, by omega⟩
  rw [syntheticYear_eq, hk, List.range_succ, List.map_append]
  simp only [List.map_cons, List.map_nil, List.getLast?_concat, Option.getD_some]
  show yearStart today + (k : ℤ) = today
  omega

/-! ### The claims -/

set_option maxHeartbeats 4000000 in
set_option maxRecDepth 1000000 in
/-- C2 counterexample: the claim's index formula `max(0, ceil(p/100·n)-1)`
assumes exact arithmetic, but the JS engine computes `(p/100)*n` in IEEE-754
binary64.  At 100 positive counts 1..100 the 55th percentile diverges:
`0.55 * 100 = 55.000000000000004`, ceiling 56, 0-based index 55, selecting
the cut point 56 where the exact formula selects index 54, cut point 55 —
so the item with count 56 receives bucket 4 from the program while the
claim's formula assigns bucket 5. -/
theorem claim_C2_counterexample :
    getPercentile (sortedPositiveCounts witnessCount100) 55 = 56 ∧
    claimCutPoint (sortedPositiveCounts witnessCount100) 4 = 55 ∧
    (calculateIntensityMap witnessCount100).lookup 55 = some 4 ∧
    claimBucket (sortedPositiveCounts witnessCount100) 56 = 5 ∧
    (calculateIntensityMap witnessCount100).lookup 55
      ≠ some (claimBucket (sortedPositiveCounts witnessCount100) 56) := by
  refine ⟨by decide, by decide, by decide, by decide, by decide⟩

/-- C2 (amended): for every input series (with distinct dates, the
documented input domain), `calculateIntensityMap` assigns bucket 0 to every
date with count 0 and, to every date with positive count, the smallest
bucket in 1..8 whose percentile cut point is ≥ the date's value, bucket 9
when the value exceeds the last cut point — where the cut-point index
`Math.ceil((p/100) * n) - 1` (clamped to ≥ 0) is what the program's IEEE-754
binary64 arithmetic yields, which at some lengths (n = 100, 180, 200, …)
sits one above the exact ceiling the original claim states.  This is
precisely `codeBucket`. -/
theorem claim_C2 (data : List DailyCommandCount)
    (hnd : (data.map (fun d => d.date)).Nodup) :
    ∀ it ∈ data, (calculateIntensityMap data).lookup it.date
      = some (codeBucket (sortedPositiveCounts data) it.count) :=
  fun it hit => calculateIntensityMap_lookup data hnd it hit

set_option maxRecDepth 1000000 in
theorem claim_C2_witness :
    ((witnessSeries5.map (fun d => d.date)).Nodup ∧
      ({ date := 2, count := 10 } : DailyCommandCount) ∈ witnessSeries5) ∧
    (calculateIntensityMap witnessSeries5).lookup 2
      = some (codeBucket (sortedPositiveCounts witnessSeries5) 10) :=
  ⟨⟨by decide, by decide⟩,
    claim_C2 witnessSeries5 (by decide) { date := 2, count := 10 } (by decide)⟩

/-- C4: the intensity buckets `calculateIntensityMap` assigns are monotone
in the counts, and equal counts receive equal buckets. -/
theorem claim_C4 (data : List DailyCommandCount)
    (hnd : (data.map (fun d => d.date)).Nodup)
    (it₁ it₂ : DailyCommandCount) (h₁ : it₁ ∈ data) (h₂ : it₂ ∈ data) (b₁ b₂ : ℕ)
    (hb₁ : (calculateIntensityMap data).lookup it₁.date = some b₁)
    (hb₂ : (calculateIntensityMap data).lookup it₂.date = some b₂) :
    (it₁.count ≤ it₂.count → b₁ ≤ b₂) ∧ (it₁.count = it₂.count → b₁ = b₂) := by
  have e₁ := calculateIntensityMap_lookup data hnd it₁ h₁
  have e₂ := calculateIntensityMap_lookup data hnd it₂ h₂
  rw [hb₁] at e₁
  rw [hb₂] at e₂
  have hv₁ : b₁ = codeBucket (sortedPositiveCounts data) it₁.count := by
    injection e₁
  have hv₂ : b₂ = codeBucket (sortedPositiveCounts data) it₂.count := by
    injection e₂
  subst hv₁
  subst hv₂
  constructor
  · exact fun hle => codeBucket_mono _ _ _ hle
  · intro heq
    rw [heq]

set_option maxRecDepth 1000000 in
theorem claim_C4_witness :
    ((witnessSeries5.map (fun d => d.date)).Nodup ∧
      ({ date := 2, count := 10 } : DailyCommandCount) ∈ witnessSeries5 ∧
      ({ date := 3, count := 100 } : DailyCommandCount) ∈ witnessSeries5 ∧
      (calculateIntensityMap witnessSeries5).lookup 2 = some 3 ∧
      (calculateIntensityMap witnessSeries5).lookup 3 = some 4) ∧
    ((10 ≤ 100 → 3 ≤ 4) ∧ (10 = 100 → 3 = 4)) :=
  ⟨⟨by decide, by decide, by decide, by decide, by decide⟩,
    claim_C4 witnessSeries5 (by decide) { date := 2, count := 10 } { date := 3, count := 100 }
      (by decide) (by decide) 3 4 (by decide) (by decide)⟩

/-- C8: for a non-empty cell list, `calculateDimensions` returns exactly the
margins of the claim (left 30/10 by day labels, top 20/10 by month labels,
bottom 35/10 by footer, right fixed 10), `graphWidth` = max cell x +
cellSize + cellGap, `graphHeight` = 7·(cellSize+cellGap), and
width/height as the corresponding sums. -/
theorem claim_C8 (cells : List Cell) (cellSize cellGap : ℕ) (sdl sml sf : Bool)
    (hne : cells ≠ []) :
    ∃ maxX, (cells.map (fun c => c.x)).max? = some maxX ∧
      calculateDimensions cells cellSize cellGap sdl sml sf = some
        { width := (if sdl then 30 else 10) + (maxX + cellSize + cellGap) + 10
          height := (if sml then 20 else 10) + 7 * (cellSize + cellGap)
            + (if sf then 35 else 10)
          leftMargin := if sdl then 30 else 10
          topMargin := if sml then 20 else 10
          graphWidth := maxX + cellSize + cellGap
          graphHeight := 7 * (cellSize + cellGap) } := by
  have hmapne : cells.map (fun c => c.x) ≠ [] := by
    simpa using hne
  cases hmax : (cells.map (fun c => c.x)).max? with
  | none => exact absurd (List.max?_eq_none_iff.mp hmax) hmapne
  | some m => exact ⟨m, rfl, calculateDimensions_eq cells cellSize cellGap sdl sml sf m hmax⟩

theorem claim_C8_witness :
    (([({ date := 0, count := 0, x := 5, y := 0, intensity := 0 } : Cell)]) ≠ []) ∧
    (∃ maxX,
      (([({ date := 0, count := 0, x := 5, y := 0, intensity := 0 } : Cell)]).map
        (fun c => c.x)).max? = some maxX ∧
      calculateDimensions [{ date := 0, count := 0, x := 5, y := 0, intensity := 0 }]
          12 3 true true true = some
        { width := (if true then 30 else 10) + (maxX + 12 + 3) + 10
          height := (if true then 20 else 10) + 7 * (12 + 3) + (if true then 35 else 10)
          leftMargin := if true then 30 else 10
          topMargin := if true then 20 else 10
          graphWidth := maxX + 12 + 3
          graphHeight := 7 * (12 + 3) }) :=
  ⟨by decide, claim_C8 [{ date := 0, count := 0, x := 5, y := 0, intensity := 0 }]
    12 3 true true true (by decide)⟩

/-- C3: on a non-empty, strictly ascending series, `generateCells` produces
exactly one cell per calendar day from the first Sunday on or before the
first date (`start`: a Sunday, at most 6 days before the first date)
through the last date inclusive, in date order; absent days get count 0
and intensity 0; `x` is the week index (incremented after each Saturday,
i.e. `i / 7`) times `cellSize + cellGap` and `y` is the day of week
(Sunday = 0) times `cellSize + cellGap`. -/
theorem claim_C3 (first : DailyCommandCount) (rest : List DailyCommandCount)
    (cellSize cellGap : ℕ) (start last : ℤ) (cells : List Cell)
    (hsorted : ((first :: rest).map (fun d => d.date)).Pairwise (fun a b => a < b))
    (hstart : start = first.date - jsGetDay first.date)
    (hlast : last = ((first :: rest).getLast?.getD first).date)
    (hcells : cells = generateCells (first :: rest)
      (calculateIntensityMap (first :: rest)) cellSize cellGap) :
    jsGetDay start = 0 ∧ start ≤ first.date ∧ first.date - start < 7 ∧
    cells.length = (last + 1 - start).toNat ∧
    ∀ i (hi : i < cells.length),
      (cells.get ⟨i, hi⟩).date = start + i ∧
      (cells.get ⟨i, hi⟩).x = (i / 7) * (cellSize + cellGap) ∧
      (cells.get ⟨i, hi⟩).y = (jsGetDay (start + i)).toNat * (cellSize + cellGap) ∧
      (∀ it ∈ first :: rest, it.date = start + i →
        (cells.get ⟨i, hi⟩).count = it.count) ∧
      ((start + i) ∉ (first :: rest).map (fun d => d.date) →
        (cells.get ⟨i, hi⟩).count = 0 ∧ (cells.get ⟨i, hi⟩).intensity = 0) := by
  have hnd : ((first :: rest).map (fun d => d.date)).Nodup :=
    hsorted.imp (fun hab => ne_of_lt hab)
  have hdow : 0 ≤ jsGetDay first.date ∧ jsGetDay first.date < 7 := by
    simp only [jsGetDay]
    exact ⟨Int.emod_nonneg _ (by norm_num), Int.emod_lt_of_pos _ (by norm_num)⟩
  subst hstart
  subst hlast
  subst hcells
  rw [generateCells_eq]
  refine ⟨by simp only [jsGetDay]; omega, by omega, by omega, by simp, ?_⟩
  intro i hi
  simp only [List.length_map, List.length_range] at hi
  have hget : ∀ (hj : i < ((List.range ((((first :: rest).getLast?.getD first).date + 1
        - (first.date - jsGetDay first.date)).toNat)).map
        (fun j => gridCell ((first :: rest).foldl (fun m d => mapSet m d.date d.count) [])
          (calculateIntensityMap (first :: rest)) cellSize cellGap
          (first.date - jsGetDay first.date) j)).length),
      ((List.range ((((first :: rest).getLast?.getD first).date + 1
        - (first.date - jsGetDay first.date)).toNat)).map
        (fun j => gridCell ((first :: rest).foldl (fun m d => mapSet m d.date d.count) [])
          (calculateIntensityMap (first :: rest)) cellSize cellGap
          (first.date - jsGetDay first.date) j)).get ⟨i, hj⟩
      = gridCell ((first :: rest).foldl (fun m d => mapSet m d.date d.count) [])
          (calculateIntensityMap (first :: rest)) cellSize cellGap
          (first.date - jsGetDay first.date) i := by
    intro hj
    rw [List.get_eq_getElem, List.getElem_map, List.getElem_range]
  rw [hget]
  refine ⟨rfl, rfl, ?_, ?_, ?_⟩
  · show (i % 7) * (cellSize + cellGap)
      = (jsGetDay (first.date - jsGetDay first.date + i)).toNat * (cellSize + cellGap)
    have : (jsGetDay (first.date - jsGetDay first.date + i)).toNat = i % 7 := by
      simp only [jsGetDay]
      omega
    rw [this]
  · intro it hit hdate
    show ((((first :: rest).foldl (fun m d => mapSet m d.date d.count) []).lookup
        (first.date - jsGetDay first.date + i)).getD 0) = it.count
    rw [← hdate, lookup_foldl_mapSet_mem (fun d => d.count) (first :: rest) [] it hnd hit]
    rfl
  · intro habs
    constructor
    · show ((((first :: rest).foldl (fun m d => mapSet m d.date d.count) []).lookup
        (first.date - jsGetDay first.date + i)).getD 0) = 0
      rw [lookup_foldl_mapSet_not_mem (fun d => d.count) (first :: rest) []
        (first.date - jsGetDay first.date + i) habs]
      rfl
    · show (((calculateIntensityMap (first :: rest)).lookup
        (first.date - jsGetDay first.date + i)).getD 0) = 0
      rw [calculateIntensityMap_lookup_none (first :: rest)
        (first.date - jsGetDay first.date + i) habs]
      rfl

theorem claim_C3_witness :
    ((witnessJan15.map (fun d => d.date)).Pairwise (fun a b => a < b) ∧
      (19736 : ℤ) = 19737 - jsGetDay 19737) ∧
    (jsGetDay 19736 = 0 ∧ (19736 : ℤ) ≤ 19737 ∧ (19737 : ℤ) - 19736 < 7 ∧
      (generateCells witnessJan15 (calculateIntensityMap witnessJan15) 12 3).length
        = ((19755 : ℤ) + 1 - 19736).toNat ∧
      ∀ i (hi : i < (generateCells witnessJan15
          (calculateIntensityMap witnessJan15) 12 3).length),
        ((generateCells witnessJan15 (calculateIntensityMap witnessJan15) 12 3).get
          ⟨i, hi⟩).date = 19736 + i ∧
        ((generateCells witnessJan15 (calculateIntensityMap witnessJan15) 12 3).get
          ⟨i, hi⟩).x = (i / 7) * (12 + 3) ∧
        ((generateCells witnessJan15 (calculateIntensityMap witnessJan15) 12 3).get
          ⟨i, hi⟩).y = (jsGetDay (19736 + i)).toNat * (12 + 3) ∧
        (∀ it ∈ witnessJan15, it.date = 19736 + i →
          ((generateCells witnessJan15 (calculateIntensityMap witnessJan15) 12 3).get
            ⟨i, hi⟩).count = it.count) ∧
        ((19736 + (i : ℤ)) ∉ witnessJan15.map (fun d => d.date) →
          ((generateCells witnessJan15 (calculateIntensityMap witnessJan15) 12 3).get
            ⟨i, hi⟩).count = 0 ∧
          ((generateCells witnessJan15 (calculateIntensityMap witnessJan15) 12 3).get
            ⟨i, hi⟩).intensity = 0)) := by
  refine ⟨⟨by decide, by decide⟩, ?_⟩
  have h := claim_C3 { date := 19737, count := 1 } [{ date := 19755, count := 1 }]
    12 3 19736 19755
    (generateCells witnessJan15 (calculateIntensityMap witnessJan15) 12 3)
    (by decide) (by decide) (by decide) rfl
  exact h

/-- C9: the color scale built by `createColorScale` maps intensity 0 to the
configured `cellBackground` verbatim, for every base color and regardless
of the rest of the scale (quantified over every possible chroma-js
output). -/
theorem claim_C9 (chroma : String → ChromaScale) (baseColor cellBackground : String) :
    createColorScale chroma baseColor cellBackground 0 = cellBackground := rfl

set_option maxRecDepth 100000 in
/-- C5: `renderMonthLabels` records one label candidate at every cell whose
calendar month differs from the previous cell's month (the first cell
always qualifies), positioned at the cell's x and carrying the cell's
day-of-month, drops the first candidate exactly when its recorded
day-of-month is greater than 7, and renders the remaining candidates as
lowercase three-letter month abbreviations; consequently data spanning
Jan 15 – Feb 2 yields no "jan" label but a "feb" label, while the same
data starting Jan 3 yields a "jan" label. -/
theorem claim_C5 :
    (∀ (cells : List Cell) (leftMargin : ℕ) (textColor : String),
      renderMonthLabels cells leftMargin textColor
        = joinSep ("")
            ((claimDropFirst (claimCandidates leftMargin cells)).map
              (monthPosText textColor))) ∧
    containsSubstr
      (renderMonthLabels (generateCells witnessJan15 (calculateIntensityMap witnessJan15) 12 3)
        30 ("#57606a")) ("jan") = false ∧
    containsSubstr
      (renderMonthLabels (generateCells witnessJan15 (calculateIntensityMap witnessJan15) 12 3)
        30 ("#57606a")) ("feb") = true ∧
    containsSubstr
      (renderMonthLabels (generateCells witnessJan3 (calculateIntensityMap witnessJan3) 12 3)
        30 ("#57606a")) ("jan") = true :=
  ⟨fun cells lm tc => renderMonthLabels_eq_claim cells lm tc,
    by decide, by decide, by decide⟩

/-- `renderDayLabels` reads only the margins of the dimension record, so
two dimension records agreeing on both margins render identical labels. -/
theorem renderDayLabels_congr_margins (d₁ d₂ : Dimensions)
    (hl : d₁.leftMargin = d₂.leftMargin) (ht : d₁.topMargin = d₂.topMargin)
    (cellSize cellGap : ℕ) (textColor : String) :
    renderDayLabels d₁ cellSize cellGap textColor
      = renderDayLabels d₂ cellSize cellGap textColor := by
  simp only [renderDayLabels, hl, ht]

/-- C10: for every non-empty series (sorted ascending by date, the
documented input domain) and fixed values of all other options, the
outputs with `showFooter = false` and `showFooter = true` differ only in
the declared height attribute — larger by 25 when the footer is shown —
and in the footer fragment appended immediately before the closing tag:
the day-label, month-label, cell-rectangle and month-separator fragments
are byte-identical between the two outputs, as is the width attribute. -/
theorem claim_C10 (chroma : String → ChromaScale) (f : DailyCommandCount)
    (r : List DailyCommandCount) (opts : SvgOptions) (today : ℤ)
    (hsorted : ((f :: r).map (fun d => d.date)).Pairwise (fun a b => a < b)) :
    ∃ (w hNoF hWithF : ℕ) (dayFrag monthFrag cellFrag sepFrag footerFrag : String),
      hWithF = hNoF + 25 ∧
      generateContributionGraph chroma (f :: r) { opts with showFooter := some false } today
        = some ("<svg width=\"" ++ toString w ++ "\" height=\"" ++ toString hNoF
            ++ "\" xmlns=\"http://www.w3.org/2000/svg\">"
            ++ (dayFrag ++ (monthFrag ++ (cellFrag ++ sepFrag))) ++ "</svg>") ∧
      generateContributionGraph chroma (f :: r) { opts with showFooter := some true } today
        = some ("<svg width=\"" ++ toString w ++ "\" height=\"" ++ toString hWithF
            ++ "\" xmlns=\"http://www.w3.org/2000/svg\">"
            ++ (dayFrag ++ (monthFrag ++ (cellFrag ++ (sepFrag ++ footerFrag))))
            ++ "</svg>") := by
  have hle := head_le_getLastD f r hsorted
  have hproc : (if (f :: r).length = 0 then syntheticYear today else (f :: r)) = f :: r := by
    simp
  have hne := generateCells_ne_nil f r (calculateIntensityMap (f :: r))
    (opts.cellSize.getD 12) (opts.cellGap.getD 3) hle
  have hmapne : (generateCells (f :: r) (calculateIntensityMap (f :: r))
      (opts.cellSize.getD 12) (opts.cellGap.getD 3)).map (fun c => c.x) ≠ [] := by
    simpa using hne
  cases hmax : ((generateCells (f :: r) (calculateIntensityMap (f :: r))
      (opts.cellSize.getD 12) (opts.cellGap.getD 3)).map (fun c => c.x)).max? with
  | none => exact absurd (List.max?_eq_none_iff.mp hmax) hmapne
  | some m =>
    have hdimsF : calculateDimensions
        (generateCells (f :: r) (calculateIntensityMap (f :: r))
          (opts.cellSize.getD 12) (opts.cellGap.getD 3))
        (opts.cellSize.getD 12) (opts.cellGap.getD 3)
        (opts.showDayLabels.getD true) (opts.showMonthLabels.getD true) false
      = some
        { width := (if opts.showDayLabels.getD true then 30 else 10)
            + (m + opts.cellSize.getD 12 + opts.cellGap.getD 3) + 10
          height := (if opts.showMonthLabels.getD true then 20 else 10)
            + 7 * (opts.cellSize.getD 12 + opts.cellGap.getD 3) + 10
          leftMargin := if opts.showDayLabels.getD true then 30 else 10
          topMargin := if opts.showMonthLabels.getD true then 20 else 10
          graphWidth := m + opts.cellSize.getD 12 + opts.cellGap.getD 3
          graphHeight := 7 * (opts.cellSize.getD 12 + opts.cellGap.getD 3) } := by
      simp [calculateDimensions, hmax]
    have hdimsT : calculateDimensions
        (generateCells (f :: r) (calculateIntensityMap (f :: r))
          (opts.cellSize.getD 12) (opts.cellGap.getD 3))
        (opts.cellSize.getD 12) (opts.cellGap.getD 3)
        (opts.showDayLabels.getD true) (opts.showMonthLabels.getD true) true
      = some
        { width := (if opts.showDayLabels.getD true then 30 else 10)
            + (m + opts.cellSize.getD 12 + opts.cellGap.getD 3) + 10
          height := (if opts.showMonthLabels.getD true then 20 else 10)
            + 7 * (opts.cellSize.getD 12 + opts.cellGap.getD 3) + 35
          leftMargin := if opts.showDayLabels.getD true then 30 else 10
          topMargin := if opts.showMonthLabels.getD true then 20 else 10
          graphWidth := m + opts.cellSize.getD 12 + opts.cellGap.getD 3
          graphHeight := 7 * (opts.cellSize.getD 12 + opts.cellGap.getD 3) } := by
      simp [calculateDimensions, hmax]
    have hRD : renderDayLabels
        { width := (if opts.showDayLabels.getD true then 30 else 10)
            + (m + opts.cellSize.getD 12 + opts.cellGap.getD 3) + 10
          height := (if opts.showMonthLabels.getD true then 20 else 10)
            + 7 * (opts.cellSize.getD 12 + opts.cellGap.getD 3) + 35
          leftMargin := if opts.showDayLabels.getD true then 30 else 10
          topMargin := if opts.showMonthLabels.getD true then 20 else 10
          graphWidth := m + opts.cellSize.getD 12 + opts.cellGap.getD 3
          graphHeight := 7 * (opts.cellSize.getD 12 + opts.cellGap.getD 3) }
        (opts.cellSize.getD 12) (opts.cellGap.getD 3) (opts.textColor.getD ("#57606a"))
      = renderDayLabels
        { width := (if opts.showDayLabels.getD true then 30 else 10)
            + (m + opts.cellSize.getD 12 + opts.cellGap.getD 3) + 10
          height := (if opts.showMonthLabels.getD true then 20 else 10)
            + 7 * (opts.cellSize.getD 12 + opts.cellGap.getD 3) + 10
          leftMargin := if opts.showDayLabels.getD true then 30 else 10
          topMargin := if opts.showMonthLabels.getD true then 20 else 10
          graphWidth := m + opts.cellSize.getD 12 + opts.cellGap.getD 3
          graphHeight := 7 * (opts.cellSize.getD 12 + opts.cellGap.getD 3) }
        (opts.cellSize.getD 12) (opts.cellGap.getD 3) (opts.textColor.getD ("#57606a")) :=
      renderDayLabels_congr_margins _ _ rfl rfl _ _ _
    refine ⟨(if opts.showDayLabels.getD true then 30 else 10)
        + (m + opts.cellSize.getD 12 + opts.cellGap.getD 3) + 10,
      (if opts.showMonthLabels.getD true then 20 else 10)
        + 7 * (opts.cellSize.getD 12 + opts.cellGap.getD 3) + 10,
      (if opts.showMonthLabels.getD true then 20 else 10)
        + 7 * (opts.cellSize.getD 12 + opts.cellGap.getD 3) + 35,
      (if opts.showDayLabels.getD true then
          renderDayLabels
            { width := (if opts.showDayLabels.getD true then 30 else 10)
                + (m + opts.cellSize.getD 12 + opts.cellGap.getD 3) + 10
              height := (if opts.showMonthLabels.getD true then 20 else 10)
                + 7 * (opts.cellSize.getD 12 + opts.cellGap.getD 3) + 10
              leftMargin := if opts.showDayLabels.getD true then 30 else 10
              topMargin := if opts.showMonthLabels.getD true then 20 else 10
              graphWidth := m + opts.cellSize.getD 12 + opts.cellGap.getD 3
              graphHeight := 7 * (opts.cellSize.getD 12 + opts.cellGap.getD 3) }
            (opts.cellSize.getD 12) (opts.cellGap.getD 3) (opts.textColor.getD ("#57606a"))
        else ""),
      (if opts.showMonthLabels.getD true then
          renderMonthLabels
            (generateCells (f :: r) (calculateIntensityMap (f :: r))
              (opts.cellSize.getD 12) (opts.cellGap.getD 3))
            (if opts.showDayLabels.getD true then 30 else 10)
            (opts.textColor.getD ("#57606a"))
        else ""),
      renderCells
        (generateCells (f :: r) (calculateIntensityMap (f :: r))
          (opts.cellSize.getD 12) (opts.cellGap.getD 3))
        (if opts.showDayLabels.getD true then 30 else 10)
        (if opts.showMonthLabels.getD true then 20 else 10)
        (opts.cellSize.getD 12)
        (createColorScale chroma (opts.baseColor.getD ("#fb7185"))
          (opts.cellBackground.getD ("#ebedf0"))),
      renderMonthSeparators
        (generateCells (f :: r) (calculateIntensityMap (f :: r))
          (opts.cellSize.getD 12) (opts.cellGap.getD 3))
        (if opts.showDayLabels.getD true then 30 else 10)
        (if opts.showMonthLabels.getD true then 20 else 10)
        (opts.cellSize.getD 12) (opts.cellGap.getD 3) (opts.textColor.getD ("#57606a")),
      renderFooter (f :: r)
        { width := (if opts.showDayLabels.getD true then 30 else 10)
            + (m + opts.cellSize.getD 12 + opts.cellGap.getD 3) + 10
          height := (if opts.showMonthLabels.getD true then 20 else 10)
            + 7 * (opts.cellSize.getD 12 + opts.cellGap.getD 3) + 35
          leftMargin := if opts.showDayLabels.getD true then 30 else 10
          topMargin := if opts.showMonthLabels.getD true then 20 else 10
          graphWidth := m + opts.cellSize.getD 12 + opts.cellGap.getD 3
          graphHeight := 7 * (opts.cellSize.getD 12 + opts.cellGap.getD 3) }
        (opts.textColor.getD ("#57606a"))
        (createColorScale chroma (opts.baseColor.getD ("#fb7185"))
          (opts.cellBackground.getD ("#ebedf0"))),
      by omega, ?_, ?_⟩
    · simp only [generateContributionGraph, hproc, Option.getD_some, hdimsF,
        Option.map_some']
      cases hb1 : opts.showDayLabels.getD true <;>
        cases hb2 : opts.showMonthLabels.getD true <;>
          simp [String.append_assoc]
    · simp only [generateContributionGraph, hproc, Option.getD_some, hdimsT,
        Option.map_some', hRD]
      cases hb1 : opts.showDayLabels.getD true <;>
        cases hb2 : opts.showMonthLabels.getD true <;>
          simp [String.append_assoc]

theorem claim_C10_witness :
    ((witnessJan15.map (fun d => d.date)).Pairwise (fun a b => a < b)) ∧
    (∃ (w hNoF hWithF : ℕ) (dayFrag monthFrag cellFrag sepFrag footerFrag : String),
      hWithF = hNoF + 25 ∧
      generateContributionGraph witnessChroma witnessJan15
          ({ showFooter := some false } : SvgOptions) 0
        = some ("<svg width=\"" ++ toString w ++ "\" height=\"" ++ toString hNoF
            ++ "\" xmlns=\"http://www.w3.org/2000/svg\">"
            ++ (dayFrag ++ (monthFrag ++ (cellFrag ++ sepFrag))) ++ "</svg>") ∧
      generateContributionGraph witnessChroma witnessJan15
          ({ showFooter := some true } : SvgOptions) 0
        = some ("<svg width=\"" ++ toString w ++ "\" height=\"" ++ toString hWithF
            ++ "\" xmlns=\"http://www.w3.org/2000/svg\">"
            ++ (dayFrag ++ (monthFrag ++ (cellFrag ++ (sepFrag ++ footerFrag))))
            ++ "</svg>")) :=
  ⟨by decide, claim_C10 witnessChroma { date := 19737, count := 1 }
    [{ date := 19755, count := 1 }] {} 0 (by decide)⟩

set_option maxRecDepth 200000 in
/-- C1 counterexample: on a grid containing September, October and November
2024 the source sorts the month keys as strings, yielding the order
`2024-10 < 2024-8 < 2024-9`, so the attempted separator pairs are not the
chronologically adjacent pairs the claim describes: the pair
(October, November) is missing and the spurious pair (November, September)
is attempted instead. -/
theorem claim_C1_counterexample :
    sortedMonthKeys
        (generateCells witnessSepNov (calculateIntensityMap witnessSepNov) 12 3)
      = [("2024-10"), ("2024-8"), ("2024-9")] ∧
    chronMonthKeys
        (generateCells witnessSepNov (calculateIntensityMap witnessSepNov) 12 3)
      = [("2024-8"), ("2024-9"), ("2024-10")] ∧
    codeSeparatorPairs
        (generateCells witnessSepNov (calculateIntensityMap witnessSepNov) 12 3)
      ≠ claimSeparatorPairs
        (generateCells witnessSepNov (calculateIntensityMap witnessSepNov) 12 3) := by
  refine ⟨by decide, by decide, by decide⟩

/-- C1 (amended): `renderMonthSeparators` emits no separator when the grid
contains fewer than two distinct months; otherwise it attempts — and
succeeds at — exactly one separator path per consecutive pair of month
keys in their JS string-sort (lexicographic) order, which departs from
chronological order whenever a month with 0-based index ≥ 10 coexists with
a month with index 2–9 of the same year. -/
theorem claim_C1 (data : List DailyCommandCount) (im : List (ℤ × ℕ))
    (lm tm cs gap : ℕ) (tc : String) :
    ((monthGroups (generateCells data im cs gap)).length < 2 →
      renderMonthSeparators (generateCells data im cs gap) lm tm cs gap tc = "") ∧
    (2 ≤ (monthGroups (generateCells data im cs gap)).length →
      (codeSeparatorPairs (generateCells data im cs gap)).length
          = (monthGroups (generateCells data im cs gap)).length - 1 ∧
      (∀ pr ∈ codeSeparatorPairs (generateCells data im cs gap),
        (sepPathFor
            (((monthGroups (generateCells data im cs gap)).lookup pr.1).getD [])
            (((monthGroups (generateCells data im cs gap)).lookup pr.2).getD [])
            lm tm cs gap (sepStrokeColor tc)).isSome = true) ∧
      renderMonthSeparators (generateCells data im cs gap) lm tm cs gap tc
        = joinSep ("\n")
            ((codeSeparatorPairs (generateCells data im cs gap)).map
              (fun pr =>
                (sepPathFor
                    (((monthGroups (generateCells data im cs gap)).lookup pr.1).getD [])
                    (((monthGroups (generateCells data im cs gap)).lookup pr.2).getD [])
                    lm tm cs gap (sepStrokeColor tc)).getD ("")))) := by
  constructor
  · intro hlt
    by_cases h0 : (generateCells data im cs gap).length = 0
    · simp [renderMonthSeparators, h0]
    · simp [renderMonthSeparators, h0, hlt]
  · intro h2
    have h0 : ¬((generateCells data im cs gap).length = 0) := by
      intro h0
      rw [List.length_eq_zero] at h0
      rw [h0] at h2
      simp [monthGroups] at h2
    have hisSome : ∀ pr ∈ codeSeparatorPairs (generateCells data im cs gap),
        (sepPathFor
            (((monthGroups (generateCells data im cs gap)).lookup pr.1).getD [])
            (((monthGroups (generateCells data im cs gap)).lookup pr.2).getD [])
            lm tm cs gap (sepStrokeColor tc)).isSome = true := by
      rintro ⟨k1, k2⟩ hpr
      simp only [codeSeparatorPairs] at hpr
      obtain ⟨hk1, _⟩ := List.of_mem_zip hpr
      have hk1' : k1 ∈ (monthGroups (generateCells data im cs gap)).map (fun g => g.1) :=
        (jsSort_mem _ _ _).mp (by simpa [sortedMonthKeys] using hk1)
      obtain ⟨g1, hlk1, hmemg1⟩ := lookup_of_mem_keys _ _ hk1'
      obtain ⟨hne1, hsub1⟩ := monthGroups_invariant data im cs gap (k1, g1) hmemg1
      cases g1 with
      | nil => exact absurd rfl hne1
      | cons a g1t =>
        have hacell : a ∈ generateCells data im cs gap := hsub1 a (by simp)
        obtain ⟨rr, hrr, hy⟩ := generateCells_y_row data im cs gap a hacell
        dsimp only
        rw [hlk1]
        simp only [Option.getD_some]
        exact sepPathFor_isSome _ _ _ _ _ _ _ a (by simp) rr hrr hy
    have hlen : (sortedMonthKeys (generateCells data im cs gap)).length
        = (monthGroups (generateCells data im cs gap)).length := by
      simp [sortedMonthKeys, jsSort_length]
    refine ⟨?_, hisSome, ?_⟩
    · simp only [codeSeparatorPairs]
      rw [List.length_zip, List.length_tail]
      omega
    · simp only [renderMonthSeparators]
      rw [if_neg h0,
        if_neg (by omega : ¬((monthGroups (generateCells data im cs gap)).length < 2))]
      simp only [codeSeparatorPairs]
      exact congrArg (joinSep ("\n"))
        (filterMap_eq_map_getD _ ("") _ (by simpa [codeSeparatorPairs] using hisSome))

set_option maxRecDepth 200000 in
theorem claim_C1_witness :
    2 ≤ (monthGroups
        (generateCells witnessSepNov (calculateIntensityMap witnessSepNov) 12 3)).length ∧
    ((codeSeparatorPairs
          (generateCells witnessSepNov (calculateIntensityMap witnessSepNov) 12 3)).length
        = (monthGroups
            (generateCells witnessSepNov (calculateIntensityMap witnessSepNov) 12 3)).length
          - 1 ∧
      (∀ pr ∈ codeSeparatorPairs
          (generateCells witnessSepNov (calculateIntensityMap witnessSepNov) 12 3),
        (sepPathFor
            (((monthGroups
                (generateCells witnessSepNov (calculateIntensityMap witnessSepNov) 12 3)).lookup
                  pr.1).getD [])
            (((monthGroups
                (generateCells witnessSepNov (calculateIntensityMap witnessSepNov) 12 3)).lookup
                  pr.2).getD [])
            30 20 12 3 (sepStrokeColor ("#57606a"))).isSome = true) ∧
      renderMonthSeparators
          (generateCells witnessSepNov (calculateIntensityMap witnessSepNov) 12 3)
          30 20 12 3 ("#57606a")
        = joinSep ("\n")
            ((codeSeparatorPairs
                (generateCells witnessSepNov (calculateIntensityMap witnessSepNov) 12 3)).map
              (fun pr =>
                (sepPathFor
                    (((monthGroups
                        (generateCells witnessSepNov
                          (calculateIntensityMap witnessSepNov) 12 3)).lookup pr.1).getD [])
                    (((monthGroups
                        (generateCells witnessSepNov
                          (calculateIntensityMap witnessSepNov) 12 3)).lookup pr.2).getD [])
                    30 20 12 3 (sepStrokeColor ("#57606a"))).getD ("")))) :=
  ⟨by decide,
    (claim_C1 witnessSepNov (calculateIntensityMap witnessSepNov) 30 20 12 3
      ("#57606a")).2 (by decide)⟩

/-- C6: for empty input (at the default options; the chroma capability is
assumed to deliver color strings free of the letter `'o'`, as hex `#rrggbb`
or `rgb(...)` strings are), `generateContributionGraph` substitutes — before
running the rest of the pipeline — a synthetic series covering exactly one
year ending today with all counts zero (365 or 366 further days before
`today`, consecutive), and the resulting output contains at least 365 cell
rectangles and no placeholder `"no data"` text. -/
theorem claim_C6 (chroma : String → ChromaScale) (today : ℤ)
    (hchroma : (∀ col ∈ (chroma ("#fb7185")).colors, NoO col)
      ∧ NoO ((chroma ("#fb7185")).bright1) ∧ NoO ((chroma ("#fb7185")).bright2)) :
    generateContributionGraph chroma [] {} today
        = generateContributionGraph chroma (syntheticYear today) {} today ∧
    (∃ n : ℕ, 365 ≤ n ∧ n ≤ 366 ∧
      syntheticYear today
        = (List.range (n + 1)).map
            (fun i => { date := today - (n : ℤ) + (i : ℤ), count := 0 })) ∧
    (∃ svg : String,
      generateContributionGraph chroma [] {} today = some svg ∧
      365 ≤ countSubstr svg ("<rect ") ∧
      containsSubstr svg ("no data") = false) := by
  have hb := yearStart_bounds today
  have hsub : generateContributionGraph chroma [] {} today
      = generateContributionGraph chroma (syntheticYear today) {} today := by
    simp [generateContributionGraph, ite_self]
  refine ⟨hsub, ?_, ?_⟩
  · refine ⟨(today - yearStart today).toNat, by omega, by omega, ?_⟩
    have hcast : ((today - yearStart today).toNat : ℤ) = today - yearStart today := by omega
    have hk : (today + 1 - yearStart today).toNat
        = (today - yearStart today).toNat + 1 := by omega
    rw [syntheticYear_eq, hk]
    apply List.map_congr_left
    intro i _
    simp only [DailyCommandCount.mk.injEq]
    exact ⟨by omega, trivial⟩
  · obtain ⟨r, hr⟩ := syntheticYear_cons today
    have hs := syntheticYear_sorted today
    rw [hr] at hs
    have hle := head_le_getLastD _ r hs
    have hproc : (if (syntheticYear today).length = 0 then syntheticYear today
        else syntheticYear today)
          = ({ date := yearStart today, count := 0 } : DailyCommandCount) :: r := by
      rw [ite_self]
      exact hr
    have hne := generateCells_ne_nil { date := yearStart today, count := 0 } r
      (calculateIntensityMap ({ date := yearStart today, count := 0 } :: r)) 12 3 hle
    have hmapne : ((generateCells ({ date := yearStart today, count := 0 } :: r)
        (calculateIntensityMap ({ date := yearStart today, count := 0 } :: r)) 12 3).map
          (fun c => c.x)) ≠ [] := by
      simpa using hne
    cases hmax : ((generateCells ({ date := yearStart today, count := 0 } :: r)
        (calculateIntensityMap ({ date := yearStart today, count := 0 } :: r)) 12 3).map
          (fun c => c.x)).max? with
    | none => exact absurd (List.max?_eq_none_iff.mp hmax) hmapne
    | some m =>
      have hdims : calculateDimensions
          (generateCells ({ date := yearStart today, count := 0 } :: r)
            (calculateIntensityMap ({ date := yearStart today, count := 0 } :: r)) 12 3)
          12 3 true true true
        = some
          { width := 30 + (m + 12 + 3) + 10
            height := 20 + 7 * (12 + 3) + 35
            leftMargin := 30
            topMargin := 20
            graphWidth := m + 12 + 3
            graphHeight := 7 * (12 + 3) } := by
        simp [calculateDimensions, hmax]
      have hgcNoO : ∀ i, NoO (createColorScale chroma ("#fb7185") ("#ebedf0") i) :=
        createColorScale_NoO chroma ("#fb7185") hchroma.1 hchroma.2.1 hchroma.2.2
      have hout : generateContributionGraph chroma (syntheticYear today) {} today
          = some (("<svg width=\"" ++ toString (30 + (m + 12 + 3) + 10) ++ "\" height=\""
              ++ toString (20 + 7 * (12 + 3) + 35)
              ++ "\" xmlns=\"http://www.w3.org/2000/svg\">")
            ++ (renderDayLabels
                { width := 30 + (m + 12 + 3) + 10
                  height := 20 + 7 * (12 + 3) + 35
                  leftMargin := 30
                  topMargin := 20
                  graphWidth := m + 12 + 3
                  graphHeight := 7 * (12 + 3) } 12 3 ("#57606a")
            ++ (renderMonthLabels
                (generateCells ({ date := yearStart today, count := 0 } :: r)
                  (calculateIntensityMap ({ date := yearStart today, count := 0 } :: r)) 12 3)
                30 ("#57606a")
            ++ (renderCells
                (generateCells ({ date := yearStart today, count := 0 } :: r)
                  (calculateIntensityMap ({ date := yearStart today, count := 0 } :: r)) 12 3)
                30 20 12 (createColorScale chroma ("#fb7185") ("#ebedf0"))
            ++ (renderMonthSeparators
                (generateCells ({ date := yearStart today, count := 0 } :: r)
                  (calculateIntensityMap ({ date := yearStart today, count := 0 } :: r)) 12 3)
                30 20 12 3 ("#57606a")
            ++ (renderFooter ({ date := yearStart today, count := 0 } :: r)
                { width := 30 + (m + 12 + 3) + 10
                  height := 20 + 7 * (12 + 3) + 35
                  leftMargin := 30
                  topMargin := 20
                  graphWidth := m + 12 + 3
                  graphHeight := 7 * (12 + 3) } ("#57606a")
                (createColorScale chroma ("#fb7185") ("#ebedf0"))
            ++ "</svg>")))))) := by
        simp only [generateContributionGraph, hproc, Option.getD_none, hdims,
          Option.map_some']
        simp [String.append_assoc]
      have hlast : ((({ date := yearStart today, count := 0 } : DailyCommandCount)
          :: r).getLast?.getD { date := yearStart today, count := 0 }).date = today := by
        rw [← hr]
        exact syntheticYear_getLast today _
      have hdow : 0 ≤ jsGetDay (yearStart today) ∧ jsGetDay (yearStart today) < 7 := by
        simp only [jsGetDay]
        exact ⟨Int.emod_nonneg _ (by norm_num), Int.emod_lt_of_pos _ (by norm_num)⟩
      have hfdate : ({ date := yearStart today, count := 0 } : DailyCommandCount).date
          = yearStart today := rfl
      have hlenc : 366 ≤ (generateCells ({ date := yearStart today, count := 0 } :: r)
          (calculateIntensityMap ({ date := yearStart today, count := 0 } :: r)) 12 3).length := by
        rw [generateCells_length]
        simp only [hfdate] at hlast ⊢
        omega
      refine ⟨_, hsub.trans hout, ?_, ?_⟩
      · refine le_trans ?_ (countSubstr_append_right _ _ _)
        refine le_trans ?_ (countSubstr_append_right _ _ _)
        refine le_trans ?_ (countSubstr_append_right _ _ _)
        refine le_trans ?_ (countSubstr_append_left _ _ _)
        refine le_trans ?_ (renderCells_count _ _ _ _ _)
        omega
      · apply containsSubstr_no_data
        refine GoodStr_append _ _ ?_ (GoodStr_append _ _ ?_ (GoodStr_append _ _ ?_
          (GoodStr_append _ _ ?_ (GoodStr_append _ _ ?_ (GoodStr_append _ _ ?_ ?_)))))
        · refine GoodStr_append _ _ (GoodStr_append _ _ (GoodStr_append _ _
            (GoodStr_append _ _ ?_ ?_) ?_) ?_) ?_
          · decide
          · exact GoodStr_of_NoO _ (NoO_toString_nat _)
          · decide
          · exact GoodStr_of_NoO _ (NoO_toString_nat _)
          · decide
        · exact renderDayLabels_Good _ _ _
        · exact renderMonthLabels_Good _ _
        · exact renderCells_Good _ _ _ _ _ hgcNoO
        · exact renderMonthSeparators_Good _ _ _ _ _
        · exact renderFooter_Good _ _ _ hgcNoO
        · decide

theorem claim_C6_witness :
    ((∀ col ∈ (witnessChroma ("#fb7185")).colors, NoO col)
      ∧ NoO ((witnessChroma ("#fb7185")).bright1)
      ∧ NoO ((witnessChroma ("#fb7185")).bright2)) ∧
    (generateContributionGraph witnessChroma [] {} 0
        = generateContributionGraph witnessChroma (syntheticYear 0) {} 0 ∧
      (∃ n : ℕ, 365 ≤ n ∧ n ≤ 366 ∧
        syntheticYear 0
          = (List.range (n + 1)).map
              (fun i => { date := (0 : ℤ) - (n : ℤ) + (i : ℤ), count := 0 })) ∧
      (∃ svg : String,
        generateContributionGraph witnessChroma [] {} 0 = some svg ∧
        365 ≤ countSubstr svg ("<rect ") ∧
        containsSubstr svg ("no data") = false)) :=
  ⟨⟨by decide, by decide, by decide⟩, claim_C6 witnessChroma 0 ⟨by decide, by decide, by decide⟩⟩

end AtuinAbacus
